import Mathlib

/-!
The BOUNCER control protocol of gircbnc (lib/components/bouncer/bouncer.go).

A shallow embedding of the command router `onMessage` and of its nine command
handlers, followed by the properties of the specification that were checked
against them.

Conventions of the embedding.

* A Go `map[string]*ServerConnection` is an association list with one entry per
  key. Go iterates a map in an unspecified order; the order of the list stands
  for the order of one iteration, and every statement below quantifies over all
  lists, hence over all orders.
* The map `vals` of a reply line is filled afresh for every line; the order in
  which its `range` loop runs is chosen by the runtime, `Ext.rangeOrder`, and
  every statement below quantifies over all runtimes.
* `getNetworkByName` returns a pointer into the map. An assignment through that
  pointer is `storeNetwork`, which rewrites the very entry `getNetworkByName`
  selected.
* A handler returns a `Run`: the user's state when the handler stops, the
  calls it made on its collaborators in the order it made them, and whether it
  stopped in a Go runtime panic (index out of range) instead of returning.
* Library and collaborator code that is not part of bouncer.go is a parameter:
  `Lib` (strings.ToLower, ircmsg.ParseTags), `Clock` (time.Parse, Time.Format)
  and `Ext` (the upstream connection and the data store).
-/

namespace Gircbnc

/-! ## Data model -/

/-- The ircmsg.TagValue of a decoded tag: a bare `key` has `HasValue = false`. -/
structure TagValue where
  HasValue : Bool
  Value : String
deriving DecidableEq, Repr

/-- A decoded tag block, `map[string]ircmsg.TagValue`; only looked up by key. -/
abbrev Tags := List (String × TagValue)

/-- A time.Time: an instant (Unix seconds and nanoseconds) and the offset of
its zone in seconds east of UTC. -/
structure Time where
  unix : Int
  nsec : Nat
  offset : Int
deriving DecidableEq, Repr

/-- The method `Time.UTC`: the same instant, in the UTC zone. -/
def Time.UTC (t : Time) : Time := { t with offset := 0 }

/-- A conversation buffer of a network. -/
structure ServerConnectionBuffer where
  Name : String
  Channel : Bool
  LastSeen : Time
deriving DecidableEq, Repr

/-- One address of a network, as the literal built in commandAddNetwork. -/
structure ServerConnectionAddress where
  Host : String
  Port : Int
  UseTLS : Bool
  VerifyTLS : Bool
deriving DecidableEq, Repr

/-- The live upstream connection of a network, the field `Foo` of the source:
`Foo.Connected` and `Foo.Nick` are the two members bouncer.go reads. -/
structure ConnState where
  Connected : Bool
  Nick : String
deriving DecidableEq, Repr

/-- The buffers of a network, keyed by buffer name. -/
abbrev Buffers := List (String × ServerConnectionBuffer)

/-- A network session, ircbnc.ServerConnection, with the fields bouncer.go uses. -/
structure ServerConnection where
  Name : String
  Password : String
  Nickname : String
  Username : String
  Realname : String
  Addresses : List ServerConnectionAddress
  Buffers : Buffers
  Foo : ConnState
deriving DecidableEq, Repr

/-- The network directory of a user, `listener.User.Networks`. -/
abbrev Networks := List (String × ServerConnection)

/-- The user a listener belongs to: the defaults and the network directory. -/
structure User where
  DefaultNick : String
  DefaultUser : String
  DefaultReal : String
  Networks : Networks
deriving DecidableEq, Repr

/-- An ircmsg.IrcMessage, reduced to the command and its parameters. -/
structure IrcMessage where
  Command : String
  Params : List String
deriving DecidableEq, Repr

/-- The hook payload ircbnc.HookIrcRaw; `User` is `event.Listener.User`. -/
structure HookIrcRaw where
  FromClient : Bool
  Halt : Bool
  Message : IrcMessage
  User : User
deriving DecidableEq, Repr

/-! ## Collaborators -/

/-- Library functions bouncer.go calls: `strings.ToLower`, and
`ircmsg.ParseTags`, whose error result is `none`. -/
structure Lib where
  toLower : String → String
  parseTags : String → Option Tags

/-- The two functions of package time: `time.Parse(time.RFC3339, s)`, whose
error result is `none`, and `t.Format(time.RFC3339)`. -/
structure Clock where
  parseTime : String → Option Time
  formatTime : Time → String

/-- Modelled from the spec: the Network Session Facade and the Persistence
Gateway, which live in lib/ and not under src/. The spec has the connection
state "transitioned by connect/disconnect": `connect` and `disconnect` give the
connection state (the field `Foo`) the network has when `net.Connect()`, or
`net.Disconnect()`, returns, and touch no other field. `saveFails` tells
whether `Ds.SaveConnection` returns an error. `rangeOrder vals` stands for the
Go runtime, which chooses the order in which a `range` loop visits the map
`vals`: it is read by `rangeVals`. -/
structure Ext where
  connect : ServerConnection → ConnState
  disconnect : ServerConnection → ConnState
  saveFails : ServerConnection → Bool
  rangeOrder : List (String × String) → List Nat

/-- What a handler does to its collaborators, in the order it does it:
`sendLine line` is `listener.SendLine(line)` and `send params` is
`listener.Send(nil, "", "BOUNCER", params...)`. -/
inductive Event where
  | sendLine (line : String)
  | send (params : List String)
  | connect (net : ServerConnection)
  | disconnect (net : ServerConnection)
  | saveConnection (net : ServerConnection)
  | delConnection (net : ServerConnection)
  | log (text : String)
deriving DecidableEq, Repr

/-- The loop `for k, v := range vals { line += fmt.Sprintf("%s=%s;", k, v) }`
(lines 139-142 and 179-182) run over the entries in the order of the list. -/
def valsLine : List (String × String) → String
  | [] => ""
  | (k, v) :: rest => k ++ "=" ++ v ++ ";" ++ valsLine rest

/-- The entries of a Go map in the order a `range` loop visits them, the list
`vals` holding them in the order of their assignment. Go leaves the order to
its runtime: each number of `choices` picks, by its remainder, the entry
visited next among those not visited yet, and once the numbers run out the
entries left are visited in the order of their assignment. -/
def rangeVals : List Nat → List (String × String) → List (String × String)
  | _, [] => []
  | [], vals => vals
  | c :: cs, v :: vs =>
    (v :: vs).getD (c % (vs.length + 1)) v ::
      rangeVals cs ((v :: vs).eraseIdx (c % (vs.length + 1)))

/-- The call `SendLine(pfx + line)` for the line `valsLine vals`. -/
abbrev Event.sendLineVals (pfx : String) (vals : List (String × String)) : Event :=
  Event.sendLine (pfx ++ valsLine vals)

/-- The outcome of one handler call. -/
structure Run where
  user : User
  out : List Event
  panicked : Bool
deriving DecidableEq, Repr

/-- The outcome of onMessage: the halt flag of the event and the handler's run. -/
structure Outcome where
  Halt : Bool
  user : User
  out : List Event
  panicked : Bool
deriving DecidableEq, Repr

/-! ## Helpers of the source and of Go -/

/-- The function tagValue of bouncer.go. -/
def tagValue (tags : Tags) (name : String) (dflt : String) : String :=
  match tags.lookup name with
  | none => dflt
  | some val => if !val.HasValue then "" else val.Value

/-- The function strconv.Atoi with its error dropped, as in `n, _ := Atoi(s)`:
an optional sign and decimal digits; 0 on a syntax error, the nearest 64-bit
bound on a range error. -/
def atoi (s : String) : Int :=
  let cs := s.data
  let neg := cs.head? = some '-'
  let ds := if cs.head? = some '-' ∨ cs.head? = some '+' then cs.tail else cs
  if ds = [] ∨ ¬ ds.all Char.isDigit then 0
  else
    let un : Nat := ds.foldl (fun a d => 10 * a + (d.toNat - 48)) 0
    if neg then (if un > 2 ^ 63 then -(2 ^ 63 : Int) else -(un : Int))
    else (if un ≥ 2 ^ 63 then (2 ^ 63 : Int) - 1 else (un : Int))

/-- The function strconv.Itoa. -/
def itoa (i : Int) : String := toString i

/-- The function getNetworkByName of bouncer.go: the first network, in the
order of the iteration, whose lowered name is the lowered `netName`. -/
def getNetworkByName (lib : Lib) : Networks → String → Option ServerConnection
  | [], _ => none
  | (_, network) :: rest, netName =>
    if lib.toLower network.Name = lib.toLower netName then some network
    else getNetworkByName lib rest netName

/-- An assignment through the pointer getNetworkByName returned: the entry it
selected now holds `net`. -/
def storeNetwork (lib : Lib) : Networks → String → ServerConnection → Networks
  | [], _, _ => []
  | (key, network) :: rest, netName, net =>
    if lib.toLower network.Name = lib.toLower netName then (key, net) :: rest
    else (key, network) :: storeNetwork lib rest netName net

/-- The Go statement `m[key] = net`. -/
def mapSet : Networks → String → ServerConnection → Networks
  | [], key, net => [(key, net)]
  | (k, v) :: rest, key, net =>
    if k = key then (key, net) :: rest else (k, v) :: mapSet rest key net

/-- The Go statement `delete(m, key)`. -/
def mapDelete (m : Networks) (key : String) : Networks :=
  m.filter (fun e => decide (e.1 ≠ key))

/-- Modelled from the spec: `Buffers.Get` (lib/, not under src/); the Buffer
Directory is a "per-network mapping from buffer name to a Buffer". -/
def buffersGet (bs : Buffers) (name : String) : Option ServerConnectionBuffer :=
  bs.lookup name

/-- Modelled from the spec: `Buffers.Remove` (lib/, not under src/); "buffer
removal is a no-op if the buffer is absent". -/
def buffersRemove (bs : Buffers) (name : String) : Buffers :=
  bs.filter (fun e => decide (e.1 ≠ name))

/-- An assignment through the pointer `Buffers.Get` returned. -/
def buffersStore : Buffers → String → ServerConnectionBuffer → Buffers
  | [], _, _ => []
  | (k, b) :: rest, name, buf =>
    if k = name then (k, buf) :: rest else (k, b) :: buffersStore rest name buf

/-- Modelled from the spec: `ircbnc.NewServerConnection` (lib/, not under
src/): a session with nothing set, no address, no buffer, not connected. -/
def NewServerConnection : ServerConnection :=
  { Name := "", Password := "", Nickname := "", Username := "", Realname := "",
    Addresses := [], Buffers := [], Foo := { Connected := false, Nick := "" } }

/-- An assignment to a field of `net.Addresses[0]`; `none` is the index out of
range panic of an empty `Addresses`. -/
def setAddress0 (net : ServerConnection)
    (f : ServerConnectionAddress → ServerConnectionAddress) : Option ServerConnection :=
  match net.Addresses with
  | [] => none
  | a :: rest => some { net with Addresses := f a :: rest }

/-! ## The command handlers -/

/-- The handler commandConnectNetwork (lines 75-95). The guard of line 76 has
no `return`: with no parameter the reply is sent and `params[0]` panics. -/
def commandConnectNetwork (lib : Lib) (ext : Ext) (user : User) (params : List String) : Run :=
  let pre := if params.length = 0 then [Event.sendLine "BOUNCER connect * ERR_INVALIDARGS"] else []
  match params with
  | [] => ⟨user, pre, true⟩
  | netName :: _ =>
    match getNetworkByName lib user.Networks netName with
    | none =>
      ⟨user, pre ++ [Event.sendLine ("BOUNCER connect " ++ netName ++ " ERR_NETNOTFOUND")], false⟩
    | some net =>
      let net1 := { net with Foo := ext.connect net }
      ⟨{ user with Networks := storeNetwork lib user.Networks netName net1 },
        pre ++ [Event.sendLine ("BOUNCER state " ++ netName ++ " connecting"),
          Event.connect net,
          if net1.Foo.Connected then Event.sendLine ("BOUNCER state " ++ netName ++ " connected")
          else Event.sendLine ("BOUNCER state " ++ netName ++ " disconnected")],
        false⟩

/-- The handler commandDisconnectNetwork (lines 97-111). -/
def commandDisconnectNetwork (lib : Lib) (ext : Ext) (user : User) (params : List String) : Run :=
  let pre :=
    if params.length = 0 then [Event.sendLine "BOUNCER disconnect * ERR_INVALIDARGS"] else []
  match params with
  | [] => ⟨user, pre, true⟩
  | netName :: _ =>
    match getNetworkByName lib user.Networks netName with
    | none =>
      ⟨user, pre ++ [Event.sendLine ("BOUNCER disconnect " ++ netName ++ " ERR_NETNOTFOUND")],
        false⟩
    | some net =>
      let net1 := { net with Foo := ext.disconnect net }
      ⟨{ user with Networks := storeNetwork lib user.Networks netName net1 },
        pre ++ [Event.disconnect net, Event.send ["state", netName, "disconnected"]], false⟩

/-- The map `vals` of one network in commandListNetworks (lines 119-137), in
the order of its assignments; `none` when `network.Addresses[0]` panics. -/
def networkVals (network : ServerConnection) : Option (List (String × String)) :=
  match network.Addresses with
  | [] => none
  | a :: _ =>
    some ([("network", network.Name), ("nick", network.Nickname), ("user", network.Username),
        ("host", a.Host), ("port", itoa a.Port), ("password", network.Password),
        ("tls", if a.UseTLS then "1" else "0")] ++
      (if network.Foo.Connected then [("state", "connected"), ("currentNick", network.Foo.Nick)]
       else [("state", "disconnected")]))

/-- The loop of commandListNetworks (lines 118-145): the lines sent, and
whether the loop stopped in a panic. For each network the map `vals` is
filled, `line` is built from it by the inner loop of lines 139-142 in the
order the runtime visits the map, and `"BOUNCER listnetworks " + line` is
sent. -/
def listNetworksLoop (ext : Ext) : Networks → List Event × Bool
  | [] => ([], false)
  | (_, network) :: rest =>
    match networkVals network with
    | none => ([], true)
    | some vals =>
      let line := valsLine (rangeVals (ext.rangeOrder vals) vals)
      (Event.sendLine ("BOUNCER listnetworks " ++ line) :: (listNetworksLoop ext rest).1,
        (listNetworksLoop ext rest).2)

/-- The handler commandListNetworks (lines 117-148). -/
def commandListNetworks (ext : Ext) (user : User) (_params : List String) : Run :=
  if (listNetworksLoop ext user.Networks).2 then
    ⟨user, (listNetworksLoop ext user.Networks).1, true⟩
  else
    ⟨user,
      (listNetworksLoop ext user.Networks).1 ++ [Event.sendLine "BOUNCER listnetworks end"],
      false⟩

/-- The map `vals` of one buffer in commandListBuffers (lines 167-177). -/
def bufferVals (clock : Clock) (net : ServerConnection) (buffer : ServerConnectionBuffer) :
    List (String × String) :=
  [("network", net.Name), ("buffer", buffer.Name), ("seen", clock.formatTime buffer.LastSeen)] ++
    (if buffer.Channel then [("channel", "1"), ("topic", ""), ("joined", "1")] else [])

/-- The handler commandListBuffers (lines 154-188). For each buffer the map
`vals` is filled, `line` is built from it by the inner loop of lines 179-182
in the order the runtime visits the map, and `line` is sent as the last
parameter of a `Send`. -/
def commandListBuffers (lib : Lib) (clock : Clock) (ext : Ext) (user : User)
    (params : List String) : Run :=
  let pre :=
    if params.length = 0 then [Event.sendLine "BOUNCER listbuffers * ERR_INVALIDARGS"] else []
  match params with
  | [] => ⟨user, pre, true⟩
  | netName :: _ =>
    match getNetworkByName lib user.Networks netName with
    | none =>
      ⟨user, pre ++ [Event.sendLine ("BOUNCER listbuffers " ++ netName ++ " ERR_NETNOTFOUND")],
        false⟩
    | some net =>
      ⟨user,
        pre ++ net.Buffers.map (fun e =>
            let vals := bufferVals clock net e.2
            let line := valsLine (rangeVals (ext.rangeOrder vals) vals)
            Event.send ["listbuffers", netName, line]) ++
          [Event.sendLine ("BOUNCER listbuffers " ++ net.Name ++ " end")],
        false⟩

/-- The handler commandDelBuffer (lines 192-210). -/
def commandDelBuffer (lib : Lib) (user : User) (params : List String) : Run :=
  let pre :=
    if params.length < 2 then [Event.sendLine "BOUNCER delbuffer * * ERR_INVALIDARGS"] else []
  match params with
  | [] => ⟨user, pre, true⟩
  | [_] => ⟨user, pre, true⟩
  | netName :: bufferName :: _ =>
    match getNetworkByName lib user.Networks netName with
    | none => ⟨user, pre ++ [Event.send ["delbuffer", netName, "*", "ERR_NETNOTFOUND"]], false⟩
    | some net =>
      let net1 := { net with Buffers := buffersRemove net.Buffers bufferName }
      ⟨{ user with Networks := storeNetwork lib user.Networks netName net1 },
        pre ++ [Event.saveConnection net1,
          Event.send ["delbuffer", netName, bufferName, "RPL_OK"]],
        false⟩

/-- The handler commandDelNetwork (lines 216-233). -/
def commandDelNetwork (lib : Lib) (ext : Ext) (user : User) (params : List String) : Run :=
  let pre :=
    if params.length = 0 then [Event.sendLine "BOUNCER delnetwork * ERR_NEEDSNAME"] else []
  match params with
  | [] => ⟨user, pre, true⟩
  | netName :: _ =>
    match getNetworkByName lib user.Networks netName with
    | none =>
      ⟨user, pre ++ [Event.sendLine ("BOUNCER delnetwork " ++ netName ++ " ERR_NETNOTFOUND")],
        false⟩
    | some net =>
      let net1 := { net with Foo := ext.disconnect net }
      ⟨{ user with
          Networks := mapDelete (storeNetwork lib user.Networks netName net1) net1.Name },
        pre ++ [Event.disconnect net, Event.send ["state", netName, "disconnected"],
          Event.delConnection net1],
        false⟩

/-- The connection commandAddNetwork builds (lines 251-305) from the decoded
tags of a request that passed its checks. -/
def newConnection (user : User) (vars : Tags) : ServerConnection :=
  let netName := tagValue vars "network" ""
  let netAddress := tagValue vars "host" ""
  let netPort := atoi (tagValue vars "port" "6667")
  let netPassword := tagValue vars "password" ""
  let netNick := tagValue vars "nick" ""
  let netUser := tagValue vars "user" ""
  let netRealname := tagValue vars "realname" ""
  let varTls := tagValue vars "tls" "0"
  let netTls := if varTls = "1" then true else false
  let newAddress : ServerConnectionAddress :=
    { Host := netAddress, Port := netPort, UseTLS := netTls, VerifyTLS := false }
  { NewServerConnection with
    Name := netName
    Password := netPassword
    Nickname := if netNick ≠ "" then netNick else user.DefaultNick
    Username := if netUser ≠ "" then netUser else user.DefaultUser
    Realname := if netRealname ≠ "" then netRealname else user.DefaultReal
    Addresses := NewServerConnection.Addresses ++ [newAddress] }

/-- The handler commandAddNetwork (lines 239-314). -/
def commandAddNetwork (lib : Lib) (ext : Ext) (user : User) (params : List String) : Run :=
  match params with
  | [] => ⟨user, [Event.sendLine "BOUNCER addnetwork * ERR_INVALIDARGS"], false⟩
  | block :: _ =>
    match lib.parseTags block with
    | none => ⟨user, [Event.sendLine "BOUNCER addnetwork * ERR_INVALIDARGS"], false⟩
    | some vars =>
      let netName := tagValue vars "network" ""
      let netAddress := tagValue vars "host" ""
      let netPort := atoi (tagValue vars "port" "6667")
      if netName = "" ∨ netAddress = "" ∨ netPort = 0 then
        ⟨user, [Event.sendLine "BOUNCER addnetwork * ERR_INVALIDARGS"], false⟩
      else
        match getNetworkByName lib user.Networks netName with
        | some existingNet =>
          ⟨user, [Event.sendLine ("BOUNCER addnetwork " ++ existingNet.Name ++ " ERR_NAMEINUSE")],
            false⟩
        | none =>
          let connection := newConnection user vars
          ⟨{ user with Networks := mapSet user.Networks connection.Name connection },
            [Event.saveConnection connection,
              if ext.saveFails connection then
                Event.sendLine
                  ("BOUNCER addnetwork " ++ netName ++ " ERR_UNKNOWN :Error saving the network")
              else Event.sendLine ("BOUNCER addnetwork " ++ netName ++ " RPL_OK")],
            false⟩

/-- Lines 337-340 of commandChangeNetwork: the host, when the tag has a value. -/
def setHost (vars : Tags) (net : ServerConnection) : Option ServerConnection :=
  let netAddress := tagValue vars "host" ""
  if netAddress ≠ "" then setAddress0 net (fun a => { a with Host := netAddress })
  else some net

/-- Lines 342-345 of commandChangeNetwork: the port, when it parses above 0. -/
def setPort (vars : Tags) (net : ServerConnection) : Option ServerConnection :=
  let netPort := atoi (tagValue vars "port" "0")
  if netPort > 0 then setAddress0 net (fun a => { a with Port := netPort })
  else some net

/-- Lines 347-361 of commandChangeNetwork: the three assignments to
`net.Password`, `net.Nickname` and `net.Username`, each under its own test. -/
def setCredentials (vars : Tags) (net : ServerConnection) : ServerConnection :=
  let netPassword := tagValue vars "password" "."
  let netNick := tagValue vars "nick" ""
  let netUser := tagValue vars "user" ""
  { net with
    Password := if netPassword ≠ "." then netPassword else net.Password
    Nickname := if netNick ≠ "" then netNick else net.Nickname
    Username := if netUser ≠ "" then netUser else net.Username }

/-- Lines 363-368 of commandChangeNetwork: the TLS flag, for "1" and for "0". -/
def setTls (vars : Tags) (net : ServerConnection) : Option ServerConnection :=
  let netTls := tagValue vars "tls" ""
  if netTls = "1" then setAddress0 net (fun a => { a with UseTLS := true })
  else if netTls = "0" then setAddress0 net (fun a => { a with UseTLS := false })
  else some net

/-- The field assignments of commandChangeNetwork (lines 337-368), in order.
The flag is true when an assignment to `net.Addresses[0]` panicked; the
connection is then as the assignments before it left it. -/
def changeFields (vars : Tags) (net : ServerConnection) : ServerConnection × Bool :=
  match setHost vars net with
  | none => (net, true)
  | some net1 =>
    match setPort vars net1 with
    | none => (net1, true)
    | some net2 =>
      match setTls vars (setCredentials vars net2) with
      | none => (setCredentials vars net2, true)
      | some net6 => (net6, false)

/-- The handler commandChangeNetwork (lines 318-375). -/
def commandChangeNetwork (lib : Lib) (ext : Ext) (user : User) (params : List String) : Run :=
  match params with
  | netName :: block :: _ =>
    match lib.parseTags block with
    | none => ⟨user, [Event.sendLine "BOUNCER changenetwork * ERR_INVALIDARGS"], false⟩
    | some vars =>
      match getNetworkByName lib user.Networks netName with
      | none => ⟨user, [Event.sendLine "BOUNCER changenetwork * ERR_NETNOTFOUND"], false⟩
      | some net =>
        let net1 := (changeFields vars net).1
        let user1 := { user with Networks := storeNetwork lib user.Networks netName net1 }
        if (changeFields vars net).2 then ⟨user1, [], true⟩
        else
          ⟨user1,
            [Event.saveConnection net1,
              if ext.saveFails net1 then
                Event.sendLine
                  ("BOUNCER changenetwork " ++ net1.Name ++ " ERR_UNKNOWN :Error saving the network")
              else Event.sendLine ("BOUNCER changenetwork " ++ net1.Name ++ " RPL_OK")],
            false⟩
  | _ => ⟨user, [Event.sendLine "BOUNCER changenetwork * ERR_INVALIDARGS"], false⟩

/-- The handler commandChangeBuffer (lines 379-429). -/
def commandChangeBuffer (lib : Lib) (clock : Clock) (ext : Ext) (user : User)
    (params : List String) : Run :=
  match params with
  | netName :: bufferName :: block :: _ =>
    match lib.parseTags block with
    | none => ⟨user, [Event.sendLine "BOUNCER changebuffer * * ERR_INVALIDARGS"], false⟩
    | some vars =>
      match getNetworkByName lib user.Networks netName with
      | none => ⟨user, [Event.sendLine "BOUNCER changebuffer * * ERR_NETNOTFOUND"], false⟩
      | some net =>
        match buffersGet net.Buffers bufferName with
        | none => ⟨user, [Event.sendLine "BOUNCER changebuffer * * ERR_BUFFERNOTFOUND"], false⟩
        | some buffer =>
          let seen := tagValue vars "seen" ""
          let parsed := if seen ≠ "" then clock.parseTime seen else none
          let logged :=
            if seen ≠ "" ∧ clock.parseTime seen = none then
              [Event.log "Error parsing time for seen in BOUNCER: "]
            else []
          let buffer1 :=
            match parsed with
            | some seenTime => { buffer with LastSeen := seenTime.UTC }
            | none => buffer
          let net1 := { net with Buffers := buffersStore net.Buffers bufferName buffer1 }
          ⟨{ user with Networks := storeNetwork lib user.Networks netName net1 },
            logged ++ [Event.saveConnection net1,
              if ext.saveFails net1 then
                Event.sendLine ("BOUNCER changebuffer " ++ net1.Name ++ " " ++ buffer1.Name ++
                  " ERR_UNKNOWN :Error saving the buffer")
              else
                Event.sendLine
                  ("BOUNCER changebuffer " ++ net1.Name ++ " " ++ buffer1.Name ++ " RPL_OK")],
            false⟩
  | _ => ⟨user, [Event.sendLine "BOUNCER changebuffer * * ERR_INVALIDARGS"], false⟩

/-! ## The command router -/

/-- The `switch command` of onMessage (lines 53-72). -/
def dispatch (lib : Lib) (clock : Clock) (ext : Ext) (user : User) (command : String)
    (params : List String) : Run :=
  if command = "listnetworks" then commandListNetworks ext user params
  else if command = "addnetwork" then commandAddNetwork lib ext user params
  else if command = "changenetwork" then commandChangeNetwork lib ext user params
  else if command = "connect" then commandConnectNetwork lib ext user params
  else if command = "disconnect" then commandDisconnectNetwork lib ext user params
  else if command = "listbuffers" then commandListBuffers lib clock ext user params
  else if command = "changebuffer" then commandChangeBuffer lib clock ext user params
  else if command = "delbuffer" then commandDelBuffer lib user params
  else if command = "delnetwork" then commandDelNetwork lib ext user params
  else ⟨user, [], false⟩

/-- The outcome of onMessage once line 48 has set `event.Halt` and a handler
has run. -/
def Run.halted (r : Run) : Outcome := ⟨true, r.user, r.out, r.panicked⟩

/-- The hook onMessage (lines 34-73). With no parameter at all, `msg.Params[0]`
panics after the halt flag is set. -/
def onMessage (lib : Lib) (clock : Clock) (ext : Ext) (event : HookIrcRaw) : Outcome :=
  if !event.FromClient then ⟨event.Halt, event.User, [], false⟩
  else if event.Message.Command ≠ "BOUNCER" then ⟨event.Halt, event.User, [], false⟩
  else
    match event.Message.Params with
    | [] => ⟨true, event.User, [], true⟩
    | verb :: params => (dispatch lib clock ext event.User (lib.toLower verb) params).halted

/-- A frame of a session: the collaborators' behaviour during it, whether it
comes from the client, and the message. -/
structure Frame where
  ext : Ext
  FromClient : Bool
  Message : IrcMessage

/-- The user's state after onMessage handled each frame of a session in turn,
each on the state the one before it left (a panic leaves the state as it was
when it happened). -/
def runFrames (lib : Lib) (clock : Clock) : User → List Frame → User
  | user, [] => user
  | user, f :: rest =>
    runFrames lib clock (onMessage lib clock f.ext ⟨f.FromClient, false, f.Message, user⟩).user rest

/-- Whether an event is a call of the Persistence Gateway. -/
def Event.isPersistence : Event → Bool
  | Event.saveConnection _ => true
  | Event.delConnection _ => true
  | _ => false

/-! ## A concrete library for the scenarios -/

/-- The lower-case form of an ASCII letter; any other character is kept. -/
def lowerChar (c : Char) : Char :=
  if 'A' ≤ c ∧ c ≤ 'Z' then Char.ofNat (c.toNat + 32) else c

/-- The function strings.ToLower on ASCII text (on which it agrees with Go). -/
def asciiLower (s : String) : String := String.mk (s.data.map lowerChar)

/-- The pieces of a text between the occurrences of a separator. -/
def splitOnChar (sep : Char) : List Char → List (List Char)
  | [] => [[]]
  | c :: rest =>
    match splitOnChar sep rest with
    | [] => [[]]
    | seg :: segs => if c = sep then [] :: seg :: segs else (c :: seg) :: segs

/-- One `key=value` or bare `key` of a tag block. -/
def parseTag (seg : List Char) : String × TagValue :=
  if '=' ∈ seg then
    (String.mk (seg.takeWhile (fun c => decide (c ≠ '='))),
      ⟨true, String.mk (seg.dropWhile (fun c => decide (c ≠ '='))).tail⟩)
  else (String.mk seg, ⟨false, ""⟩)

/-- Modelled from the spec: the Tag Codec (ircmsg.ParseTags, a library that is
not under src/), which "decodes a parameter string of semicolon-separated
key=value (or bare key meaning present-with-empty-value) pairs into a mapping",
values being opaque text. Empty pieces are skipped and a later pair of a key
replaces an earlier one, as an assignment to a Go map does. -/
def specParseTags (s : String) : Option Tags :=
  some (((splitOnChar ';' s.data).filter (fun seg => decide (seg ≠ []))).map parseTag).reverse

/-- The library of the scenarios: ASCII lower-casing and the spec's tag codec. -/
def specLib : Lib := { toLower := asciiLower, parseTags := specParseTags }

/-- Collaborators of a scenario in which every save succeeds: `connect` leaves
the network connected under its configured nickname, `disconnect` leaves it
disconnected, and the runtime visits a map in the order of its assignments. -/
def okExt : Ext :=
  { connect := fun net => { Connected := true, Nick := net.Nickname }
    disconnect := fun net => { net.Foo with Connected := false }
    saveFails := fun _ => false
    rangeOrder := fun _ => [] }

/-- The collaborators of `okExt` with a runtime that visits a map in another
order: the third entry first, then the second of those left. -/
def shuffledExt : Ext := { okExt with rangeOrder := fun _ => [2, 1] }

/-- A user with no network. -/
def emptyUser : User :=
  { DefaultNick := "nick0", DefaultUser := "user0", DefaultReal := "real0", Networks := [] }

/-! ## Invariants of the network directory -/

/-- Every key of the directory is the Name of the network stored under it. -/
def KeysAreNames (nets : Networks) : Prop := ∀ e ∈ nets, e.1 = e.2.Name

/-- No two networks of the directory have names that are equal ignoring case. -/
def UniqueNames (lib : Lib) (nets : Networks) : Prop :=
  nets.Pairwise (fun a b => lib.toLower a.2.Name ≠ lib.toLower b.2.Name)

/-- The invariant of the network directory (spec, section 3): it maps each
network's name to the network, and names are unique ignoring case. -/
def DirectoryInv (lib : Lib) (nets : Networks) : Prop :=
  KeysAreNames nets ∧ UniqueNames lib nets

/-- Every network of the directory has at least one address (spec, section 3). -/
def HasAddresses (nets : Networks) : Prop := ∀ e ∈ nets, e.2.Addresses ≠ []

instance (nets : Networks) : Decidable (KeysAreNames nets) := by
  unfold KeysAreNames; infer_instance

instance (lib : Lib) (nets : Networks) : Decidable (UniqueNames lib nets) := by
  unfold UniqueNames; infer_instance

instance (lib : Lib) (nets : Networks) : Decidable (DirectoryInv lib nets) := by
  unfold DirectoryInv; infer_instance

instance (nets : Networks) : Decidable (HasAddresses nets) := by
  unfold HasAddresses; infer_instance

/-! ## Scenario states and reply predicates -/

/-- A network `snoonet`, disconnected, with one address. -/
def snoonet : ServerConnection :=
  { Name := "snoonet", Password := "", Nickname := "nick0", Username := "user0",
    Realname := "real0",
    Addresses := [{ Host := "irc.snoonet.org", Port := 6697, UseTLS := true, VerifyTLS := false }],
    Buffers := [], Foo := { Connected := false, Nick := "" } }

/-- A network `freenode`, disconnected, with one address and one buffer. -/
def freenode : ServerConnection :=
  { Name := "freenode", Password := "", Nickname := "nick1", Username := "user0",
    Realname := "real0",
    Addresses := [{ Host := "irc.freenode.net", Port := 6667, UseTLS := false, VerifyTLS := false }],
    Buffers := [("#chan", { Name := "#chan", Channel := true, LastSeen := ⟨0, 0, 0⟩ })],
    Foo := { Connected := false, Nick := "" } }

/-- A user whose directory holds `snoonet`. -/
def snoonetUser : User := { emptyUser with Networks := [("snoonet", snoonet)] }

/-- A user whose directory holds `freenode` and `snoonet`. -/
def twoNetUser : User :=
  { emptyUser with Networks := [("freenode", freenode), ("snoonet", snoonet)] }

/-- The client frame `BOUNCER params...` on a user's state. -/
def clientFrame (user : User) (params : List String) : HookIrcRaw :=
  { FromClient := true, Halt := false, Message := { Command := "BOUNCER", Params := params },
    User := user }

/-- The scenario of the spec, first frame: addnetwork on a user with no network. -/
def scenarioAdd (clock : Clock) : Outcome :=
  onMessage specLib clock okExt (clientFrame emptyUser
    ["addnetwork", "network=freenode;host=irc.freenode.net;port=6667;nick=nick1"])

/-- The scenario of the spec, second frame: listnetworks. -/
def scenarioList (clock : Clock) : Outcome :=
  onMessage specLib clock okExt (clientFrame (scenarioAdd clock).user ["listnetworks"])

/-- The scenario of the spec, third frame: delnetwork freenode. -/
def scenarioDel (clock : Clock) : Outcome :=
  onMessage specLib clock okExt (clientFrame (scenarioList clock).user ["delnetwork", "freenode"])

/-- The scenario of the spec, fourth frame: listnetworks again. -/
def scenarioListAgain (clock : Clock) : Outcome :=
  onMessage specLib clock okExt (clientFrame (scenarioDel clock).user ["listnetworks"])

/-- The network the scenario's addnetwork creates. -/
def scenarioNet : ServerConnection :=
  { Name := "freenode", Password := "", Nickname := "nick1", Username := "user0",
    Realname := "real0",
    Addresses := [{ Host := "irc.freenode.net", Port := 6667, UseTLS := false, VerifyTLS := false }],
    Buffers := [], Foo := { Connected := false, Nick := "" } }

/-- The nine verbs of the `switch` of onMessage. -/
def verbs : List String :=
  ["listnetworks", "addnetwork", "changenetwork", "connect", "disconnect", "listbuffers",
    "changebuffer", "delbuffer", "delnetwork"]

/-- A clock that rejects every text and prints every time as the empty text; it
stands for the clock where a statement does not depend on what the clock says. -/
def rejectingClock : Clock := { parseTime := fun _ => none, formatTime := fun _ => "" }

/-- A reply line carries the status token `tok`: it ends in a blank and `tok`. -/
def HasStatus (tok : String) (line : String) : Prop := (" " ++ tok).data <:+ line.data

instance (tok line : String) : Decidable (HasStatus tok line) := by
  unfold HasStatus; infer_instance

/-- A reply line reports a failed validation (spec, section 7). -/
def IsValidationError (line : String) : Prop :=
  HasStatus "ERR_INVALIDARGS" line ∨ HasStatus "ERR_NAMEINUSE" line ∨
    HasStatus "ERR_NETNOTFOUND" line ∨ HasStatus "ERR_BUFFERNOTFOUND" line

instance (line : String) : Decidable (IsValidationError line) := by
  unfold IsValidationError; infer_instance

/-- A network `secured` with the password `secret`. -/
def securedNet : ServerConnection :=
  { Name := "secured", Password := "secret", Nickname := "nick0", Username := "user0",
    Realname := "real0",
    Addresses := [{ Host := "irc.example.org", Port := 6667, UseTLS := false, VerifyTLS := false }],
    Buffers := [], Foo := { Connected := false, Nick := "" } }

/-- A user whose directory holds `secured`. -/
def securedUser : User := { emptyUser with Networks := [("secured", securedNet)] }

/-- The days from 1970-01-01 to a date of the proleptic Gregorian calendar. -/
def daysFromCivil (y m d : Int) : Int :=
  let y1 := if m ≤ 2 then y - 1 else y
  let era := y1 / 400
  let yoe := y1 - era * 400
  let doy := (153 * (if m > 2 then m - 3 else m + 9) + 2) / 5 + d - 1
  let doe := yoe * 365 + yoe / 4 - yoe / 100 + doy
  era * 146097 + doe - 719468

/-- The Unix seconds of a date and time of day in UTC. -/
def unixOfCivil (y m d h mi s : Int) : Int :=
  daysFromCivil y m d * 86400 + h * 3600 + mi * 60 + s

/-- A clock that knows two texts, as time.Parse reads them: the timestamp of
the spec's example, `2024-01-02T03:04:05Z`, and the same instant written in the
zone one hour east of UTC. It rejects every other text. -/
def exampleClock : Clock :=
  { parseTime := fun s =>
      if s = "2024-01-02T03:04:05Z" then some ⟨unixOfCivil 2024 1 2 3 4 5, 0, 0⟩
      else if s = "2024-01-02T04:04:05+01:00" then some ⟨unixOfCivil 2024 1 2 3 4 5, 0, 3600⟩
      else none
    formatTime := fun _ => "" }

/-- Collaborators of a scenario in which the upstream server cannot be reached:
`connect` leaves the network disconnected. -/
def downExt : Ext :=
  { connect := fun net => { net.Foo with Connected := false }
    disconnect := fun net => { net.Foo with Connected := false }
    saveFails := fun _ => false
    rangeOrder := fun _ => [] }

/-- Every network of the directory `after` is, by key, name and addresses, a
network of the directory `before`: a command that takes `before` to `after`
created no network and touched no address. -/
def SameAddresses (before after : Networks) : Prop :=
  ∀ e ∈ after, ∃ e1 ∈ before,
    e1.1 = e.1 ∧ e1.2.Name = e.2.Name ∧ e1.2.Addresses = e.2.Addresses

/-- Collaborators of a scenario in which the data store is down: every
SaveConnection returns an error. -/
def failingExt : Ext := { okExt with saveFails := fun _ => true }

/-- A clock that prints the instant of the spec's example, 1704164645 s after
the Unix epoch in UTC, as Go's `Format(time.RFC3339)` does, and reads the same
text back; it knows no other time. -/
def stampClock : Clock :=
  { parseTime := fun s =>
      if s = "2024-01-02T03:04:05Z" then some ⟨unixOfCivil 2024 1 2 3 4 5, 0, 0⟩ else none
    formatTime := fun t =>
      if t = ⟨unixOfCivil 2024 1 2 3 4 5, 0, 0⟩ then "2024-01-02T03:04:05Z" else "" }

/-- The network `freenode` with its buffer `#chan` last seen at the instant of
the spec's example. -/
def seenNet : ServerConnection :=
  { freenode with
    Buffers :=
      [("#chan",
        { Name := "#chan", Channel := true, LastSeen := ⟨unixOfCivil 2024 1 2 3 4 5, 0, 0⟩ })] }

/-- A user whose directory holds `seenNet` and `snoonet`. -/
def seenUser : User :=
  { emptyUser with Networks := [("freenode", seenNet), ("snoonet", snoonet)] }

/-- Modelled from the spec's words (sections 4.2 and 6): the tag block of a
reply "concatenates `key=value;` per field", `key1=value1;key2=value2;`. It is
what the loop `valsLine` of the source is compared with. -/
def specFieldsText (fields : List (String × String)) : String :=
  String.join (fields.map (fun kv => kv.1 ++ "=" ++ kv.2 ++ ";"))

/-! ## Lemmas on the order of a map and on the text of a line -/

theorem getD_cons_eraseIdx_perm {α : Type} (l : List α) (i : Nat) (d : α)
    (h : i < l.length) : (l.getD i d :: l.eraseIdx i).Perm l := by
  induction l generalizing i with
  | nil => simp at h
  | cons x xs ih =>
    cases i with
    | zero => simp
    | succ j =>
      have hj : j < xs.length := by simpa using h
      have := ih j hj
      simp only [List.getD_cons_succ, List.eraseIdx_cons_succ]
      exact (List.Perm.swap x (xs.getD j d) (xs.eraseIdx j)).trans (List.Perm.cons x this)

theorem rangeVals_perm (choices : List Nat) (vals : List (String × String)) :
    (rangeVals choices vals).Perm vals := by
  induction choices generalizing vals with
  | nil => cases vals <;> simp [rangeVals]
  | cons c cs ih =>
    cases vals with
    | nil => simp [rangeVals]
    | cons v vs =>
      simp only [rangeVals]
      have hlt : c % (vs.length + 1) < (v :: vs).length := by
        simp only [List.length_cons]
        exact Nat.mod_lt _ (Nat.succ_pos _)
      exact (List.Perm.cons _ (ih _)).trans (getD_cons_eraseIdx_perm (v :: vs) _ v hlt)

theorem rangeVals_complete (p vals : List (String × String)) (h : p.Perm vals) :
    ∃ choices, rangeVals choices vals = p := by
  induction p generalizing vals with
  | nil =>
    have : vals = [] := List.Perm.eq_nil h.symm
    subst this
    exact ⟨[], rfl⟩
  | cons x p1 ih =>
    have hx : x ∈ vals := h.subset (List.mem_cons_self _ _)
    obtain ⟨i, hi, hget⟩ := List.getElem_of_mem hx
    cases vals with
    | nil => simp at hx
    | cons v vs =>
      have hperm := getD_cons_eraseIdx_perm (v :: vs) i v hi
      have hgd : (v :: vs).getD i v = x := by
        rw [List.getD_eq_getElem _ _ hi]
        exact hget
      rw [hgd] at hperm
      have hrest : p1.Perm ((v :: vs).eraseIdx i) :=
        (List.perm_cons x).1 (h.trans hperm.symm)
      obtain ⟨cs, hcs⟩ := ih _ hrest
      have hmod : i % (vs.length + 1) = i := Nat.mod_eq_of_lt (by simpa using hi)
      refine ⟨i :: cs, ?_⟩
      simp only [rangeVals, hmod, hgd, hcs]

theorem valsLine_eq_specFieldsText (fields : List (String × String)) :
    valsLine fields = specFieldsText fields := by
  unfold specFieldsText
  rw [String.join_eq]
  apply String.ext
  induction fields with
  | nil => rfl
  | cons kv rest ih =>
    obtain ⟨k, v⟩ := kv
    simp only [valsLine, String.data_append, List.map_cons, List.flatten_cons, ih]

/-! ## Lemmas on the directory -/

theorem getNetworkByName_eq_none (lib : Lib) (nets : Networks) (n : String) :
    getNetworkByName lib nets n = none ↔
      ∀ e ∈ nets, lib.toLower e.2.Name ≠ lib.toLower n := by
  induction nets with
  | nil => simp [getNetworkByName]
  | cons e rest ih =>
    obtain ⟨k, v⟩ := e
    by_cases h : lib.toLower v.Name = lib.toLower n
    · simp [getNetworkByName, h]
    · simp [getNetworkByName, h, ih]

theorem getNetworkByName_split (lib : Lib) (nets : Networks) (n : String)
    (net : ServerConnection) (h : getNetworkByName lib nets n = some net) :
    ∃ pre key post, nets = pre ++ (key, net) :: post ∧
      lib.toLower net.Name = lib.toLower n ∧
      (∀ e ∈ pre, lib.toLower e.2.Name ≠ lib.toLower n) ∧
      ∀ net1, storeNetwork lib nets n net1 = pre ++ (key, net1) :: post := by
  induction nets with
  | nil => simp [getNetworkByName] at h
  | cons e rest ih =>
    obtain ⟨k, v⟩ := e
    by_cases hv : lib.toLower v.Name = lib.toLower n
    · simp [getNetworkByName, hv] at h
      subst h
      exact ⟨[], k, rest, rfl, hv, by simp, fun net1 => by simp [storeNetwork, hv]⟩
    · simp [getNetworkByName, hv] at h
      obtain ⟨pre, key, post, h1, h2, h3, h4⟩ := ih h
      refine ⟨(k, v) :: pre, key, post, by simp [h1], h2, ?_, ?_⟩
      · intro e he
        rcases List.mem_cons.1 he with rfl | he
        · exact hv
        · exact h3 e he
      · intro net1
        simp [storeNetwork, hv, h4]

theorem getNetworkByName_mem (lib : Lib) (nets : Networks) (n : String)
    (net : ServerConnection) (h : getNetworkByName lib nets n = some net) :
    ∃ key, (key, net) ∈ nets ∧ lib.toLower net.Name = lib.toLower n := by
  obtain ⟨pre, key, post, h1, h2, -, -⟩ := getNetworkByName_split lib nets n net h
  exact ⟨key, by simp [h1], h2⟩

theorem getNetworkByName_of_unique (lib : Lib) (nets : Networks) (n key : String)
    (net : ServerConnection) (hu : UniqueNames lib nets) (hmem : (key, net) ∈ nets)
    (hn : lib.toLower net.Name = lib.toLower n) :
    getNetworkByName lib nets n = some net := by
  induction nets with
  | nil => simp at hmem
  | cons e rest ih =>
    obtain ⟨k, v⟩ := e
    have hu2 := List.pairwise_cons.1 hu
    rcases List.mem_cons.1 hmem with heq | hrest
    · simp only [Prod.mk.injEq] at heq
      obtain ⟨-, rfl⟩ := heq
      simp [getNetworkByName, hn]
    · have hne : lib.toLower v.Name ≠ lib.toLower n := by
        have := hu2.1 (key, net) hrest
        simpa [hn] using this
      simp only [getNetworkByName, hne, if_false]
      exact ih hu2.2 hrest

theorem mapSet_of_not_mem (nets : Networks) (key : String) (net : ServerConnection)
    (h : ∀ e ∈ nets, e.1 ≠ key) : mapSet nets key net = nets ++ [(key, net)] := by
  induction nets with
  | nil => rfl
  | cons e rest ih =>
    obtain ⟨k, v⟩ := e
    have hk : k ≠ key := h (k, v) (by simp)
    simp only [mapSet, hk, if_false, List.cons_append]
    rw [ih (fun e he => h e (List.mem_cons_of_mem _ he))]

theorem listNetworksLoop_ok (ext : Ext) (nets : Networks) (h : HasAddresses nets) :
    (listNetworksLoop ext nets).2 = false ∧
      ∀ e ∈ nets, ∃ vals, networkVals e.2 = some vals ∧
        Event.sendLineVals "BOUNCER listnetworks " (rangeVals (ext.rangeOrder vals) vals) ∈
          (listNetworksLoop ext nets).1 := by
  induction nets with
  | nil => simp [listNetworksLoop]
  | cons e rest ih =>
    obtain ⟨k, v⟩ := e
    have hv : v.Addresses ≠ [] := h (k, v) (by simp)
    have hrest := ih (fun e he => h e (List.mem_cons_of_mem _ he))
    obtain ⟨a, as, ha⟩ := List.exists_cons_of_ne_nil hv
    have hvals : ∃ vals, networkVals v = some vals := by
      simp [networkVals, ha]
    obtain ⟨vals, hvals⟩ := hvals
    refine ⟨by simp [listNetworksLoop, hvals, hrest.1], ?_⟩
    intro e he
    rcases List.mem_cons.1 he with rfl | he
    · exact ⟨vals, hvals, by simp [listNetworksLoop, hvals]⟩
    · obtain ⟨vals1, h1, h2⟩ := hrest.2 e he
      exact ⟨vals1, h1, by simp [listNetworksLoop, hvals, h2]⟩

/-! ## The claims -/

/-- C1: an addnetwork request whose tag block decodes, whose network and host
values are non-empty, whose port is not 0 and whose name differs, ignoring
case, from the name of every network of the directory, leaves the directory
with exactly one more entry, the new network, every earlier entry untouched;
a listnetworks on the resulting state then sends an item line for the new
network that carries state=disconnected; the fields of that line are, in some
order, network, nick, user, host, port, password, tls and state with the values
of the new network. The directory is one of the data model: its keys are the
names of its networks and every network has an address. -/
theorem addnetwork_adds_one_network (lib : Lib) (ext : Ext) (user : User) (block : String)
    (rest : List String) (vars : Tags)
    (hparse : lib.parseTags block = some vars)
    (hname : tagValue vars "network" "" ≠ "")
    (hhost : tagValue vars "host" "" ≠ "")
    (hport : atoi (tagValue vars "port" "6667") ≠ 0)
    (hfresh : ∀ e ∈ user.Networks,
      lib.toLower e.2.Name ≠ lib.toLower (tagValue vars "network" ""))
    (hkeys : KeysAreNames user.Networks)
    (haddr : HasAddresses user.Networks) :
    (commandAddNetwork lib ext user (block :: rest)).panicked = false ∧
    (commandAddNetwork lib ext user (block :: rest)).user.Networks.length
      = user.Networks.length + 1 ∧
    List.Perm (commandAddNetwork lib ext user (block :: rest)).user.Networks
      ((tagValue vars "network" "", newConnection user vars) :: user.Networks) ∧
    (newConnection user vars).Name = tagValue vars "network" "" ∧
    (commandListNetworks ext (commandAddNetwork lib ext user (block :: rest)).user []).panicked
      = false ∧
    ∃ vals,
      Event.sendLineVals "BOUNCER listnetworks " vals ∈
        (commandListNetworks ext (commandAddNetwork lib ext user (block :: rest)).user []).out ∧
      ("network", tagValue vars "network" "") ∈ vals ∧ ("state", "disconnected") ∈ vals ∧
      ("state", "connected") ∉ vals ∧
      vals.Perm
        [("network", tagValue vars "network" ""),
          ("nick", (newConnection user vars).Nickname),
          ("user", (newConnection user vars).Username),
          ("host", tagValue vars "host" ""),
          ("port", itoa (atoi (tagValue vars "port" "6667"))),
          ("password", tagValue vars "password" ""),
          ("tls", if tagValue vars "tls" "0" = "1" then "1" else "0"),
          ("state", "disconnected")] := by
  have hnone : getNetworkByName lib user.Networks (tagValue vars "network" "") = none :=
    (getNetworkByName_eq_none lib user.Networks _).2 hfresh
  have hkey : ∀ e ∈ user.Networks, e.1 ≠ tagValue vars "network" "" := by
    intro e he heq
    exact hfresh e he (by rw [← hkeys e he, heq])
  have hcname : (newConnection user vars).Name = tagValue vars "network" "" := rfl
  have hrun : (commandAddNetwork lib ext user (block :: rest)).user.Networks
      = user.Networks ++ [(tagValue vars "network" "", newConnection user vars)] := by
    simp only [commandAddNetwork, hparse, hname, hhost, hport, hnone, or_self, if_false, hcname]
    exact mapSet_of_not_mem _ _ _ hkey
  have hpan : (commandAddNetwork lib ext user (block :: rest)).panicked = false := by
    simp only [commandAddNetwork, hparse, hname, hhost, hport, hnone, or_self, if_false]
  have haddr2 : HasAddresses
      (user.Networks ++ [(tagValue vars "network" "", newConnection user vars)]) := by
    intro e he
    rcases List.mem_append.1 he with he | he
    · exact haddr e he
    · simp only [List.mem_singleton] at he
      subst he
      simp [newConnection, NewServerConnection]
  obtain ⟨hloop, hlines⟩ := listNetworksLoop_ok ext _ haddr2
  obtain ⟨vals, hvals, hmem⟩ :=
    hlines (tagValue vars "network" "", newConnection user vars) (by simp)
  have hperm := rangeVals_perm (ext.rangeOrder vals) vals
  refine ⟨hpan, by rw [hrun]; simp, ?_, hcname, ?_, rangeVals (ext.rangeOrder vals) vals,
    ?_, ?_⟩
  · rw [hrun]
    exact List.perm_append_singleton _ _
  · simp [commandListNetworks, hrun, hloop]
  · simp only [commandListNetworks, hrun, hloop]
    simp [hmem]
  · simp only [networkVals, newConnection, NewServerConnection, List.nil_append,
      Option.some.injEq] at hvals
    subst hvals
    refine ⟨hperm.mem_iff.2 (by simp), hperm.mem_iff.2 (by simp), fun h => ?_, ?_⟩
    · have := hperm.mem_iff.1 h
      simp at this
    · simpa [newConnection, NewServerConnection] using hperm

/-- C1, at a concrete request: `network=freenode;host=irc.freenode.net` on a
directory that holds `snoonet`. -/
theorem addnetwork_adds_one_network_witness :
    (commandAddNetwork specLib okExt snoonetUser
        ["network=freenode;host=irc.freenode.net"]).user.Networks.length = 2 ∧
    ∃ vals,
      Event.sendLineVals "BOUNCER listnetworks " vals ∈
        (commandListNetworks okExt (commandAddNetwork specLib okExt snoonetUser
          ["network=freenode;host=irc.freenode.net"]).user []).out ∧
      ("network", "freenode") ∈ vals ∧ ("state", "disconnected") ∈ vals ∧
      ("state", "connected") ∉ vals :=
  have h := addnetwork_adds_one_network specLib okExt snoonetUser
    "network=freenode;host=irc.freenode.net" []
    [("host", ⟨true, "irc.freenode.net"⟩), ("network", ⟨true, "freenode"⟩)]
    (by decide) (by decide) (by decide) (by decide) (by decide) (by decide) (by decide)
  have ⟨vals, h1, h2, h3, h4, _⟩ := h.2.2.2.2.2
  ⟨h.2.1, vals, h1, h2, h3, h4⟩

/-- C2 as stated fails: `addnetwork network=FreeNode`, without a host, on a
directory that holds `freenode` is answered ERR_INVALIDARGS, not
ERR_NAMEINUSE, because the checks of line 267 come before the name lookup. -/
theorem addnetwork_nameinuse_counterexample :
    specLib.parseTags "network=FreeNode" = some [("network", ⟨true, "FreeNode"⟩)] ∧
    (∃ e ∈ twoNetUser.Networks, specLib.toLower e.2.Name = specLib.toLower "FreeNode") ∧
    commandAddNetwork specLib okExt twoNetUser ["network=FreeNode"] =
      ⟨twoNetUser, [Event.sendLine "BOUNCER addnetwork * ERR_INVALIDARGS"], false⟩ := by
  decide

/-- C2, amended: an addnetwork request whose name equals, ignoring case, the
name of a network of the directory never changes the directory and never
calls persistence. Its one reply is ERR_NAMEINUSE, with the name of the
existing network, exactly when the request has a non-empty name, a non-empty
host and a port other than 0; when the name is empty, the host is empty or the
port is 0, the reply is `BOUNCER addnetwork * ERR_INVALIDARGS`, because the
checks of line 267 come before the name lookup. -/
theorem addnetwork_name_in_use (lib : Lib) (ext : Ext) (user : User) (block : String)
    (rest : List String) (vars : Tags)
    (hparse : lib.parseTags block = some vars)
    (hex : ∃ e ∈ user.Networks,
      lib.toLower e.2.Name = lib.toLower (tagValue vars "network" "")) :
    (commandAddNetwork lib ext user (block :: rest)).user = user ∧
    (commandAddNetwork lib ext user (block :: rest)).panicked = false ∧
    (∀ ev ∈ (commandAddNetwork lib ext user (block :: rest)).out, ev.isPersistence = false) ∧
    ((commandAddNetwork lib ext user (block :: rest)).out
        = [Event.sendLine "BOUNCER addnetwork * ERR_INVALIDARGS"] ∨
      ∃ key existing, (key, existing) ∈ user.Networks ∧
        lib.toLower existing.Name = lib.toLower (tagValue vars "network" "") ∧
        (commandAddNetwork lib ext user (block :: rest)).out
          = [Event.sendLine ("BOUNCER addnetwork " ++ existing.Name ++ " ERR_NAMEINUSE")]) ∧
    (tagValue vars "network" "" ≠ "" → tagValue vars "host" "" ≠ "" →
      atoi (tagValue vars "port" "6667") ≠ 0 →
      ∃ key existing, (key, existing) ∈ user.Networks ∧
        lib.toLower existing.Name = lib.toLower (tagValue vars "network" "") ∧
        (commandAddNetwork lib ext user (block :: rest)).out
          = [Event.sendLine ("BOUNCER addnetwork " ++ existing.Name ++ " ERR_NAMEINUSE")]) ∧
    (tagValue vars "network" "" = "" ∨ tagValue vars "host" "" = "" ∨
        atoi (tagValue vars "port" "6667") = 0 →
      (commandAddNetwork lib ext user (block :: rest)).out
        = [Event.sendLine "BOUNCER addnetwork * ERR_INVALIDARGS"]) := by
  have hsome : ∃ existing, getNetworkByName lib user.Networks (tagValue vars "network" "")
      = some existing := by
    cases hg : getNetworkByName lib user.Networks (tagValue vars "network" "") with
    | none =>
      obtain ⟨e, he, hl⟩ := hex
      exact absurd hl ((getNetworkByName_eq_none lib _ _).1 hg e he)
    | some existing => exact ⟨existing, rfl⟩
  obtain ⟨existing, hget⟩ := hsome
  obtain ⟨key, hmem, hlow⟩ := getNetworkByName_mem lib _ _ _ hget
  by_cases hbad : tagValue vars "network" "" = "" ∨ tagValue vars "host" "" = "" ∨
      atoi (tagValue vars "port" "6667") = 0
  · have hr : commandAddNetwork lib ext user (block :: rest)
        = ⟨user, [Event.sendLine "BOUNCER addnetwork * ERR_INVALIDARGS"], false⟩ := by
      simp only [commandAddNetwork, hparse, hbad, if_true]
    rw [hr]
    refine ⟨rfl, rfl, by simp [Event.isPersistence], Or.inl rfl, ?_, fun _ => rfl⟩
    intro h1 h2 h3
    rcases hbad with h | h | h
    · exact absurd h h1
    · exact absurd h h2
    · exact absurd h h3
  · have hr : commandAddNetwork lib ext user (block :: rest)
        = ⟨user, [Event.sendLine ("BOUNCER addnetwork " ++ existing.Name ++ " ERR_NAMEINUSE")],
            false⟩ := by
      simp only [commandAddNetwork, hparse, hbad, if_false, hget]
    rw [hr]
    exact ⟨rfl, rfl, by simp [Event.isPersistence], Or.inr ⟨key, existing, hmem, hlow, rfl⟩,
      fun _ _ _ => ⟨key, existing, hmem, hlow, rfl⟩, fun h => absurd h hbad⟩

/-- C2 amended, at concrete requests on a directory that holds `freenode`:
`network=FreeNode;host=h` is answered ERR_NAMEINUSE, and `network=FreeNode`,
which has no host, is answered ERR_INVALIDARGS. -/
theorem addnetwork_name_in_use_witness :
    (commandAddNetwork specLib okExt twoNetUser ["network=FreeNode;host=h"]).user = twoNetUser ∧
    (∃ key existing, (key, existing) ∈ twoNetUser.Networks ∧
      specLib.toLower existing.Name = specLib.toLower "FreeNode" ∧
      (commandAddNetwork specLib okExt twoNetUser ["network=FreeNode;host=h"]).out
        = [Event.sendLine ("BOUNCER addnetwork " ++ existing.Name ++ " ERR_NAMEINUSE")]) ∧
    (commandAddNetwork specLib okExt twoNetUser ["network=FreeNode"]).user = twoNetUser ∧
    (commandAddNetwork specLib okExt twoNetUser ["network=FreeNode"]).out
      = [Event.sendLine "BOUNCER addnetwork * ERR_INVALIDARGS"] :=
  have h := addnetwork_name_in_use specLib okExt twoNetUser "network=FreeNode;host=h" []
    [("host", ⟨true, "h"⟩), ("network", ⟨true, "FreeNode"⟩)] (by decide) (by decide)
  have k := addnetwork_name_in_use specLib okExt twoNetUser "network=FreeNode" []
    [("network", ⟨true, "FreeNode"⟩)] (by decide) (by decide)
  ⟨h.1, h.2.2.2.2.1 (by decide) (by decide) (by decide), k.1,
    k.2.2.2.2.2 (Or.inr (Or.inl (by decide)))⟩

theorem tagValue_absent (vars : Tags) (name dflt : String) (h : vars.lookup name = none) :
    tagValue vars name dflt = dflt := by
  simp [tagValue, h]

theorem setHost_cons (vars : Tags) (net : ServerConnection) (a : ServerConnectionAddress)
    (rest : List ServerConnectionAddress) (h : net.Addresses = a :: rest) :
    setHost vars net = some { net with
      Addresses := { a with
        Host := if tagValue vars "host" "" ≠ "" then tagValue vars "host" "" else a.Host }
        :: rest } := by
  obtain ⟨n, pw, nk, us, rn, addrs, bufs, foo⟩ := net
  simp only at h
  subst h
  simp only [setHost, setAddress0]
  split_ifs <;> rfl

theorem setPort_cons (vars : Tags) (net : ServerConnection) (a : ServerConnectionAddress)
    (rest : List ServerConnectionAddress) (h : net.Addresses = a :: rest) :
    setPort vars net = some { net with
      Addresses := { a with
        Port := if atoi (tagValue vars "port" "0") > 0 then atoi (tagValue vars "port" "0")
          else a.Port } :: rest } := by
  obtain ⟨n, pw, nk, us, rn, addrs, bufs, foo⟩ := net
  simp only at h
  subst h
  simp only [setPort, setAddress0]
  split_ifs <;> rfl

theorem setTls_cons (vars : Tags) (net : ServerConnection) (a : ServerConnectionAddress)
    (rest : List ServerConnectionAddress) (h : net.Addresses = a :: rest) :
    setTls vars net = some { net with
      Addresses := { a with
        UseTLS := if tagValue vars "tls" "" = "1" then true
          else if tagValue vars "tls" "" = "0" then false else a.UseTLS } :: rest } := by
  obtain ⟨n, pw, nk, us, rn, addrs, bufs, foo⟩ := net
  simp only at h
  subst h
  simp only [setTls, setAddress0]
  split_ifs <;> rfl

theorem changeFields_cons (vars : Tags) (net : ServerConnection) (a : ServerConnectionAddress)
    (rest : List ServerConnectionAddress) (h : net.Addresses = a :: rest) :
    changeFields vars net =
      ({ net with
          Password :=
            if tagValue vars "password" "." ≠ "." then tagValue vars "password" "."
            else net.Password
          Nickname := if tagValue vars "nick" "" ≠ "" then tagValue vars "nick" "" else net.Nickname
          Username := if tagValue vars "user" "" ≠ "" then tagValue vars "user" "" else net.Username
          Addresses :=
            { Host := if tagValue vars "host" "" ≠ "" then tagValue vars "host" "" else a.Host
              Port :=
                if atoi (tagValue vars "port" "0") > 0 then atoi (tagValue vars "port" "0")
                else a.Port
              UseTLS :=
                if tagValue vars "tls" "" = "1" then true
                else if tagValue vars "tls" "" = "0" then false else a.UseTLS
              VerifyTLS := a.VerifyTLS } :: rest }, false) := by
  unfold changeFields
  rw [setHost_cons vars net a rest h]
  simp only
  rw [setPort_cons vars _ _ rest rfl]
  simp only
  rw [setTls_cons vars _ _ rest rfl]
  rfl

theorem changeFields_nil (vars : Tags) (net : ServerConnection) (h : net.Addresses = []) :
    changeFields vars net =
      if tagValue vars "host" "" ≠ "" ∨ atoi (tagValue vars "port" "0") > 0 then (net, true)
      else
        (setCredentials vars net,
          decide (tagValue vars "tls" "" = "1" ∨ tagValue vars "tls" "" = "0")) := by
  have hc : (setCredentials vars net).Addresses = [] := h
  by_cases h1 : tagValue vars "host" "" = ""
  · by_cases h2 : atoi (tagValue vars "port" "0") > 0
    · simp [changeFields, setHost, setPort, setAddress0, h, h1, h2]
    · by_cases h3 : tagValue vars "tls" "" = "1"
      · simp [changeFields, setHost, setPort, setTls, setAddress0, hc, h1, h2, h3]
      · by_cases h4 : tagValue vars "tls" "" = "0"
        · simp [changeFields, setHost, setPort, setTls, setAddress0, hc, h1, h2, h4]
        · simp [changeFields, setHost, setPort, setTls, setAddress0, h1, h2, h3, h4]
  · simp [changeFields, setHost, setAddress0, h, h1]

theorem changeFields_frame (vars : Tags) (net : ServerConnection) :
    (changeFields vars net).1.Name = net.Name ∧
    (changeFields vars net).1.Realname = net.Realname ∧
    (changeFields vars net).1.Buffers = net.Buffers ∧
    (changeFields vars net).1.Foo = net.Foo ∧
    (changeFields vars net).1.Addresses.length = net.Addresses.length ∧
    (changeFields vars net).1.Addresses.map (fun a => a.VerifyTLS)
      = net.Addresses.map (fun a => a.VerifyTLS) ∧
    (changeFields vars net).1.Addresses.tail = net.Addresses.tail ∧
    (tagValue vars "host" "" = "" →
      (changeFields vars net).1.Addresses.map (fun a => a.Host)
        = net.Addresses.map (fun a => a.Host)) ∧
    (atoi (tagValue vars "port" "0") ≤ 0 →
      (changeFields vars net).1.Addresses.map (fun a => a.Port)
        = net.Addresses.map (fun a => a.Port)) ∧
    (tagValue vars "password" "." = "." →
      (changeFields vars net).1.Password = net.Password) ∧
    (tagValue vars "nick" "" = "" → (changeFields vars net).1.Nickname = net.Nickname) ∧
    (tagValue vars "user" "" = "" → (changeFields vars net).1.Username = net.Username) ∧
    (tagValue vars "tls" "" ≠ "1" → tagValue vars "tls" "" ≠ "0" →
      (changeFields vars net).1.Addresses.map (fun a => a.UseTLS)
        = net.Addresses.map (fun a => a.UseTLS)) := by
  rcases hA : net.Addresses with _ | ⟨a, rest⟩
  · rw [changeFields_nil vars net hA]
    by_cases hc : tagValue vars "host" "" ≠ "" ∨ atoi (tagValue vars "port" "0") > 0
    · simp only [hc, if_true, hA]
      simp
    · rw [if_neg hc]
      simp only [setCredentials]
      refine ⟨?_, ?_, ?_, ?_, ?_, ?_, ?_, ?_, ?_, ?_, ?_, ?_, ?_⟩
      all_goals first
        | trivial
        | (simp [hA]; done)
        | (intro h; simp [h, hA])
  · rw [changeFields_cons vars net a rest hA]
    refine ⟨rfl, rfl, rfl, rfl, by simp, by simp, by simp, ?_, ?_, ?_, ?_, ?_, ?_⟩
    · intro h; simp [h]
    · intro h; simp [not_lt.2 h]
    · intro h; simp [h]
    · intro h; simp [h]
    · intro h; simp [h]
    · intro h1 h2; simp [h1, h2]

/-- C3: on an existing network and a decodable tag block, commandChangeNetwork
rewrites the one entry getNetworkByName selected and nothing else of the
user: every other entry, every key and every network name stay as they were.
In the rewritten network each of host, port, nick, user, password and tls
whose tag is absent keeps its value, the password also when its tag value is
".", and name, realname, buffers, connection state, the verify flag and the
addresses after the first are never touched. And the supplied fields are
written: on a network that has an address the handler does not panic, hands
the rewritten network to SaveConnection and replies RPL_OK (ERR_UNKNOWN when
the save fails), and in the rewritten network the host is the host value when
that is not empty, the port is the port value when Atoi reads it above 0, the
TLS flag is set for the tls value "1" and cleared for "0", nickname and
username are the nick and user values when those are not empty, and the
password is the password value whenever that is not the sentinel ".". -/
theorem changenetwork_updates_supplied_fields (lib : Lib) (ext : Ext) (user : User)
    (netName block : String) (rest : List String) (vars : Tags) (net : ServerConnection)
    (hparse : lib.parseTags block = some vars)
    (hget : getNetworkByName lib user.Networks netName = some net) :
    ∃ pre key post,
      user.Networks = pre ++ (key, net) :: post ∧
      (commandChangeNetwork lib ext user (netName :: block :: rest)).user
        = { user with Networks := pre ++ (key, (changeFields vars net).1) :: post } ∧
      (changeFields vars net).1.Name = net.Name ∧
      (changeFields vars net).1.Realname = net.Realname ∧
      (changeFields vars net).1.Buffers = net.Buffers ∧
      (changeFields vars net).1.Foo = net.Foo ∧
      (changeFields vars net).1.Addresses.tail = net.Addresses.tail ∧
      (changeFields vars net).1.Addresses.map (fun a => a.VerifyTLS)
        = net.Addresses.map (fun a => a.VerifyTLS) ∧
      (vars.lookup "host" = none →
        (changeFields vars net).1.Addresses.map (fun a => a.Host)
          = net.Addresses.map (fun a => a.Host)) ∧
      (vars.lookup "port" = none →
        (changeFields vars net).1.Addresses.map (fun a => a.Port)
          = net.Addresses.map (fun a => a.Port)) ∧
      (vars.lookup "nick" = none → (changeFields vars net).1.Nickname = net.Nickname) ∧
      (vars.lookup "user" = none → (changeFields vars net).1.Username = net.Username) ∧
      (vars.lookup "password" = none ∨ tagValue vars "password" "." = "." →
        (changeFields vars net).1.Password = net.Password) ∧
      (vars.lookup "tls" = none →
        (changeFields vars net).1.Addresses.map (fun a => a.UseTLS)
          = net.Addresses.map (fun a => a.UseTLS)) ∧
      (∀ a others, net.Addresses = a :: others →
        (commandChangeNetwork lib ext user (netName :: block :: rest)).panicked = false ∧
        (commandChangeNetwork lib ext user (netName :: block :: rest)).out
          = [Event.saveConnection (changeFields vars net).1,
              if ext.saveFails (changeFields vars net).1 then
                Event.sendLine
                  ("BOUNCER changenetwork " ++ net.Name ++ " ERR_UNKNOWN :Error saving the network")
              else Event.sendLine ("BOUNCER changenetwork " ++ net.Name ++ " RPL_OK")] ∧
        (tagValue vars "host" "" ≠ "" →
          (changeFields vars net).1.Addresses.map (fun a => a.Host)
            = tagValue vars "host" "" :: others.map (fun a => a.Host)) ∧
        (0 < atoi (tagValue vars "port" "0") →
          (changeFields vars net).1.Addresses.map (fun a => a.Port)
            = atoi (tagValue vars "port" "0") :: others.map (fun a => a.Port)) ∧
        (tagValue vars "tls" "" = "1" →
          (changeFields vars net).1.Addresses.map (fun a => a.UseTLS)
            = true :: others.map (fun a => a.UseTLS)) ∧
        (tagValue vars "tls" "" = "0" →
          (changeFields vars net).1.Addresses.map (fun a => a.UseTLS)
            = false :: others.map (fun a => a.UseTLS)) ∧
        (tagValue vars "nick" "" ≠ "" →
          (changeFields vars net).1.Nickname = tagValue vars "nick" "") ∧
        (tagValue vars "user" "" ≠ "" →
          (changeFields vars net).1.Username = tagValue vars "user" "") ∧
        (tagValue vars "password" "." ≠ "." →
          (changeFields vars net).1.Password = tagValue vars "password" ".")) := by
  obtain ⟨pre, key, post, hsplit, -, -, hstore⟩ :=
    getNetworkByName_split lib user.Networks netName net hget
  obtain ⟨f1, f2, f3, f4, -, f6, f7, f8, f9, f10, f11, f12, f13⟩ := changeFields_frame vars net
  refine ⟨pre, key, post, hsplit, ?_, f1, f2, f3, f4, f7, f6, ?_, ?_, ?_, ?_, ?_, ?_, ?_⟩
  · simp only [commandChangeNetwork, hparse, hget]
    split_ifs <;> simp only [hstore]
  · intro h
    exact f8 (tagValue_absent vars _ _ h)
  · intro h
    apply f9
    rw [tagValue_absent vars _ _ h]
    decide
  · intro h
    exact f11 (tagValue_absent vars _ _ h)
  · intro h
    exact f12 (tagValue_absent vars _ _ h)
  · intro h
    rcases h with h | h
    · exact f10 (tagValue_absent vars _ _ h)
    · exact f10 h
  · intro h
    apply f13 <;> rw [tagValue_absent vars _ _ h] <;> decide
  · intro a others ha
    have hcf := changeFields_cons vars net a others ha
    have hnp : (changeFields vars net).2 = false := by rw [hcf]
    have hname : (changeFields vars net).1.Name = net.Name := f1
    refine ⟨?_, ?_, ?_, ?_, ?_, ?_, ?_, ?_, ?_⟩
    · simp [commandChangeNetwork, hparse, hget, hnp]
    · simp only [commandChangeNetwork, hparse, hget, hnp, hname]
      simp
    · intro h
      rw [hcf]
      simp [h]
    · intro h
      rw [hcf]
      simp [h]
    · intro h
      rw [hcf]
      simp [h]
    · intro h
      have h1 : tagValue vars "tls" "" ≠ "1" := by
        rw [h]
        decide
      rw [hcf]
      simp [h]
    · intro h
      rw [hcf]
      simp [h]
    · intro h
      rw [hcf]
      simp [h]
    · intro h
      rw [hcf]
      simp [h]

/-- C3, at a concrete request:
`changenetwork freenode host=evil.example;port=7000;tls=1;nick=newnick` on a
directory that holds `freenode` and `snoonet` rewrites host, port, TLS flag and
nickname of `freenode`, keeps its password and username, and leaves `snoonet`
alone. -/
theorem changenetwork_updates_supplied_fields_witness :
    (commandChangeNetwork specLib okExt twoNetUser
        ["freenode", "host=evil.example;port=7000;tls=1;nick=newnick"]).user
      = { twoNetUser with
          Networks :=
            [("freenode",
                { freenode with
                  Nickname := "newnick"
                  Addresses :=
                    [⟨"evil.example", 7000, true, false⟩] }),
              ("snoonet", snoonet)] } ∧
    ∃ pre key post,
      twoNetUser.Networks = pre ++ (key, freenode) :: post ∧
      (changeFields [("nick", ⟨true, "newnick"⟩), ("tls", ⟨true, "1"⟩),
          ("port", ⟨true, "7000"⟩), ("host", ⟨true, "evil.example"⟩)] freenode).1.Password
        = freenode.Password ∧
      (changeFields [("nick", ⟨true, "newnick"⟩), ("tls", ⟨true, "1"⟩),
          ("port", ⟨true, "7000"⟩), ("host", ⟨true, "evil.example"⟩)] freenode).1.Addresses.map
          (fun a => a.Host) = ["evil.example"] ∧
      (changeFields [("nick", ⟨true, "newnick"⟩), ("tls", ⟨true, "1"⟩),
          ("port", ⟨true, "7000"⟩), ("host", ⟨true, "evil.example"⟩)] freenode).1.Addresses.map
          (fun a => a.Port) = [7000] ∧
      (changeFields [("nick", ⟨true, "newnick"⟩), ("tls", ⟨true, "1"⟩),
          ("port", ⟨true, "7000"⟩), ("host", ⟨true, "evil.example"⟩)] freenode).1.Addresses.map
          (fun a => a.UseTLS) = [true] ∧
      (changeFields [("nick", ⟨true, "newnick"⟩), ("tls", ⟨true, "1"⟩),
          ("port", ⟨true, "7000"⟩), ("host", ⟨true, "evil.example"⟩)] freenode).1.Nickname
        = "newnick" :=
  have ⟨pre, key, post, h1, _, _, _, _, _, _, _, _, _, _, _, h3, _, hpos⟩ :=
    changenetwork_updates_supplied_fields specLib okExt twoNetUser "freenode"
      "host=evil.example;port=7000;tls=1;nick=newnick" []
      [("nick", ⟨true, "newnick"⟩), ("tls", ⟨true, "1"⟩), ("port", ⟨true, "7000"⟩),
        ("host", ⟨true, "evil.example"⟩)] freenode (by decide) (by decide)
  have hp := hpos ⟨"irc.freenode.net", 6667, false, false⟩ [] rfl
  ⟨by decide, pre, key, post, h1, h3 (Or.inl (by decide)), hp.2.2.1 (by decide),
    hp.2.2.2.1 (by decide), hp.2.2.2.2.1 (by decide), hp.2.2.2.2.2.2.1 (by decide)⟩

theorem uniqueNames_split (lib : Lib) (pre post : Networks) (x : String × ServerConnection)
    (h : UniqueNames lib (pre ++ x :: post)) :
    ∀ e ∈ pre ++ post, lib.toLower e.2.Name ≠ lib.toLower x.2.Name := by
  unfold UniqueNames at h
  rw [List.pairwise_append] at h
  obtain ⟨-, h2, h3⟩ := h
  rw [List.pairwise_cons] at h2
  intro e he
  rcases List.mem_append.1 he with he | he
  · exact h3 e he x (List.mem_cons_self _ _)
  · exact fun heq => h2.1 e he heq.symm

theorem mapDelete_split (pre post : Networks) (key : String) (net : ServerConnection)
    (h : ∀ e ∈ pre ++ post, e.1 ≠ key) :
    mapDelete (pre ++ (key, net) :: post) key = pre ++ post := by
  have hpre : pre.filter (fun e => decide (e.1 ≠ key)) = pre :=
    List.filter_eq_self.2 (fun e he => by simpa using h e (List.mem_append_left _ he))
  have hpost : post.filter (fun e => decide (e.1 ≠ key)) = post :=
    List.filter_eq_self.2 (fun e he => by simpa using h e (List.mem_append_right _ he))
  unfold mapDelete
  rw [List.filter_append, List.filter_cons, hpre, hpost]
  simp

/-- C4: in a directory of the data model (keys are names, names unique
ignoring case) that holds a network, commandDelNetwork with that network's
name calls Disconnect, sends the one notification `state N disconnected`,
calls DelConnection, and leaves the directory without that entry and with
every other entry as it was; no network answers to the name any more, and a
second commandDelNetwork with the same name replies ERR_NETNOTFOUND and
changes nothing. -/
theorem delnetwork_removes_network (lib : Lib) (ext ext2 : Ext) (user : User) (key N : String)
    (net : ServerConnection) (rest rest2 : List String)
    (hinv : DirectoryInv lib user.Networks)
    (hmem : (key, net) ∈ user.Networks)
    (hN : lib.toLower net.Name = lib.toLower N) :
    (commandDelNetwork lib ext user (N :: rest)).panicked = false ∧
    (commandDelNetwork lib ext user (N :: rest)).out
      = [Event.disconnect net, Event.send ["state", N, "disconnected"],
          Event.delConnection { net with Foo := ext.disconnect net }] ∧
    (∃ pre post,
      user.Networks = pre ++ (key, net) :: post ∧
      (commandDelNetwork lib ext user (N :: rest)).user
        = { user with Networks := pre ++ post } ∧
      (key, net) ∉ pre ++ post) ∧
    getNetworkByName lib (commandDelNetwork lib ext user (N :: rest)).user.Networks N = none ∧
    commandDelNetwork lib ext2 (commandDelNetwork lib ext user (N :: rest)).user (N :: rest2)
      = ⟨(commandDelNetwork lib ext user (N :: rest)).user,
          [Event.sendLine ("BOUNCER delnetwork " ++ N ++ " ERR_NETNOTFOUND")], false⟩ := by
  obtain ⟨hkeys, huniq⟩ := hinv
  have hget := getNetworkByName_of_unique lib user.Networks N key net huniq hmem hN
  obtain ⟨pre, key1, post, hsplit, -, -, hstore⟩ :=
    getNetworkByName_split lib user.Networks N net hget
  have hk : key = net.Name := hkeys (key, net) hmem
  have hk1 : key1 = net.Name := hkeys (key1, net) (by rw [hsplit]; simp)
  subst hk1
  rw [hsplit] at huniq
  have hothers := uniqueNames_split lib pre post _ huniq
  have hsub : ∀ e ∈ pre ++ post, e ∈ user.Networks := by
    intro e he
    rw [hsplit]
    rcases List.mem_append.1 he with he | he
    · exact List.mem_append_left _ he
    · exact List.mem_append_right _ (List.mem_cons_of_mem _ he)
  have hkeyne : ∀ e ∈ pre ++ post, e.1 ≠ net.Name := by
    intro e he heq
    apply hothers e he
    rw [← hkeys e (hsub e he), heq]
  have huser : (commandDelNetwork lib ext user (N :: rest)).user
      = { user with Networks := pre ++ post } := by
    simp only [commandDelNetwork, hget, hstore]
    rw [mapDelete_split pre post net.Name _ hkeyne]
  have hgone : getNetworkByName lib (pre ++ post) N = none :=
    (getNetworkByName_eq_none lib _ _).2 (fun e he => by rw [← hN]; exact hothers e he)
  refine ⟨?_, ?_, ⟨pre, post, by rw [hsplit, hk], huser, ?_⟩, ?_, ?_⟩
  · simp only [commandDelNetwork, hget]
  · simp [commandDelNetwork, hget]
  · intro hin
    exact hothers _ hin rfl
  · rw [huser]
    exact hgone
  · rw [huser]
    simp [commandDelNetwork, hgone]

/-- C4, at a concrete request: `delnetwork freenode` on a directory that holds
`freenode` and `snoonet`. -/
theorem delnetwork_removes_network_witness :
    (commandDelNetwork specLib okExt twoNetUser ["freenode"]).out
      = [Event.disconnect freenode, Event.send ["state", "freenode", "disconnected"],
          Event.delConnection { freenode with Foo := okExt.disconnect freenode }] ∧
    getNetworkByName specLib
      (commandDelNetwork specLib okExt twoNetUser ["freenode"]).user.Networks "freenode" = none ∧
    commandDelNetwork specLib okExt
        (commandDelNetwork specLib okExt twoNetUser ["freenode"]).user ["freenode"]
      = ⟨(commandDelNetwork specLib okExt twoNetUser ["freenode"]).user,
          [Event.sendLine ("BOUNCER delnetwork " ++ "freenode" ++ " ERR_NETNOTFOUND")], false⟩ :=
  have h := delnetwork_removes_network specLib okExt okExt twoNetUser "freenode" "freenode"
    freenode [] [] (by decide) (by decide) (by decide)
  ⟨h.2.1, h.2.2.2.1, h.2.2.2.2⟩

/-- C5, the code at the scenario: addnetwork is answered RPL_OK, listnetworks
sends one item line for freenode (host irc.freenode.net, port 6667, state
disconnected) and the end line, the last listnetworks sends only the end
line; but delnetwork sends the state notification and no reply at all: the
line `BOUNCER delnetwork freenode RPL_OK` of the claim, and of the comment
above commandDelNetwork, is never sent. -/
theorem scenario_delnetwork_sends_no_reply (clock : Clock) :
    (scenarioAdd clock).out
      = [Event.saveConnection scenarioNet, Event.sendLine "BOUNCER addnetwork freenode RPL_OK"] ∧
    (scenarioList clock).out
      = [Event.sendLineVals "BOUNCER listnetworks "
            [("network", "freenode"), ("nick", "nick1"), ("user", "user0"),
              ("host", "irc.freenode.net"), ("port", "6667"), ("password", ""), ("tls", "0"),
              ("state", "disconnected")],
          Event.sendLine "BOUNCER listnetworks end"] ∧
    (scenarioDel clock).out
      = [Event.disconnect scenarioNet, Event.send ["state", "freenode", "disconnected"],
          Event.delConnection scenarioNet] ∧
    Event.sendLine "BOUNCER delnetwork freenode RPL_OK" ∉ (scenarioDel clock).out ∧
    Event.send ["delnetwork", "freenode", "RPL_OK"] ∉ (scenarioDel clock).out ∧
    (scenarioDel clock).panicked = false ∧
    (scenarioDel clock).user.Networks = [] ∧
    (scenarioListAgain clock).out = [Event.sendLine "BOUNCER listnetworks end"] := by
  have h1 : (scenarioAdd clock).out
      = [Event.saveConnection scenarioNet, Event.sendLine "BOUNCER addnetwork freenode RPL_OK"] :=
    rfl
  have h3 : (scenarioDel clock).out
      = [Event.disconnect scenarioNet, Event.send ["state", "freenode", "disconnected"],
          Event.delConnection scenarioNet] := rfl
  refine ⟨h1, rfl, h3, ?_, ?_, rfl, rfl, rfl⟩
  · rw [h3]; decide
  · rw [h3]; decide

/-- C6, the code at the missing-argument inputs: each of connect, disconnect,
listbuffers and delnetwork with no parameter, and delbuffer with none or one,
sends its one error reply, leaves the user as it was, calls no collaborator,
and then stops in the index out of range panic of `params[0]` (`params[1]`
for delbuffer with one parameter): the guard that sends the reply has no
`return`. Through onMessage, the frame `BOUNCER connect` ends the same way. -/
theorem missing_argument_reply_then_panic (lib : Lib) (clock : Clock) (ext : Ext) (user : User)
    (name : String) :
    commandConnectNetwork lib ext user []
      = ⟨user, [Event.sendLine "BOUNCER connect * ERR_INVALIDARGS"], true⟩ ∧
    commandDisconnectNetwork lib ext user []
      = ⟨user, [Event.sendLine "BOUNCER disconnect * ERR_INVALIDARGS"], true⟩ ∧
    commandListBuffers lib clock ext user []
      = ⟨user, [Event.sendLine "BOUNCER listbuffers * ERR_INVALIDARGS"], true⟩ ∧
    commandDelNetwork lib ext user []
      = ⟨user, [Event.sendLine "BOUNCER delnetwork * ERR_NEEDSNAME"], true⟩ ∧
    commandDelBuffer lib user []
      = ⟨user, [Event.sendLine "BOUNCER delbuffer * * ERR_INVALIDARGS"], true⟩ ∧
    commandDelBuffer lib user [name]
      = ⟨user, [Event.sendLine "BOUNCER delbuffer * * ERR_INVALIDARGS"], true⟩ ∧
    onMessage specLib clock ext (clientFrame user ["connect"])
      = ⟨true, user, [Event.sendLine "BOUNCER connect * ERR_INVALIDARGS"], true⟩ :=
  ⟨rfl, rfl, rfl, rfl, rfl, rfl, rfl⟩

/-- C7: a client frame whose command is BOUNCER always comes back with the
halt flag set, whatever its handler did; with a first parameter, the handler is
chosen by the lowered verb alone among the nine verbs, and a verb that lowers
to none of them gives no reply and leaves the user's state as it was. A frame
that is not from the client, or whose command is not BOUNCER, leaves the halt
flag and the state alone and sends nothing. -/
theorem onMessage_routes_by_verb (lib : Lib) (clock : Clock) (ext : Ext) :
    (∀ event : HookIrcRaw, event.FromClient = true → event.Message.Command = "BOUNCER" →
      (onMessage lib clock ext event).Halt = true) ∧
    (∀ (halt : Bool) (user : User) (verb verb2 : String) (params : List String),
      lib.toLower verb = lib.toLower verb2 →
      onMessage lib clock ext ⟨true, halt, ⟨"BOUNCER", verb :: params⟩, user⟩
        = onMessage lib clock ext ⟨true, halt, ⟨"BOUNCER", verb2 :: params⟩, user⟩) ∧
    (∀ (halt : Bool) (user : User) (verb : String) (params : List String),
      (lib.toLower verb = "listnetworks" →
        onMessage lib clock ext ⟨true, halt, ⟨"BOUNCER", verb :: params⟩, user⟩
          = (commandListNetworks ext user params).halted) ∧
      (lib.toLower verb = "addnetwork" →
        onMessage lib clock ext ⟨true, halt, ⟨"BOUNCER", verb :: params⟩, user⟩
          = (commandAddNetwork lib ext user params).halted) ∧
      (lib.toLower verb = "changenetwork" →
        onMessage lib clock ext ⟨true, halt, ⟨"BOUNCER", verb :: params⟩, user⟩
          = (commandChangeNetwork lib ext user params).halted) ∧
      (lib.toLower verb = "connect" →
        onMessage lib clock ext ⟨true, halt, ⟨"BOUNCER", verb :: params⟩, user⟩
          = (commandConnectNetwork lib ext user params).halted) ∧
      (lib.toLower verb = "disconnect" →
        onMessage lib clock ext ⟨true, halt, ⟨"BOUNCER", verb :: params⟩, user⟩
          = (commandDisconnectNetwork lib ext user params).halted) ∧
      (lib.toLower verb = "listbuffers" →
        onMessage lib clock ext ⟨true, halt, ⟨"BOUNCER", verb :: params⟩, user⟩
          = (commandListBuffers lib clock ext user params).halted) ∧
      (lib.toLower verb = "changebuffer" →
        onMessage lib clock ext ⟨true, halt, ⟨"BOUNCER", verb :: params⟩, user⟩
          = (commandChangeBuffer lib clock ext user params).halted) ∧
      (lib.toLower verb = "delbuffer" →
        onMessage lib clock ext ⟨true, halt, ⟨"BOUNCER", verb :: params⟩, user⟩
          = (commandDelBuffer lib user params).halted) ∧
      (lib.toLower verb = "delnetwork" →
        onMessage lib clock ext ⟨true, halt, ⟨"BOUNCER", verb :: params⟩, user⟩
          = (commandDelNetwork lib ext user params).halted) ∧
      (lib.toLower verb ∉ verbs →
        onMessage lib clock ext ⟨true, halt, ⟨"BOUNCER", verb :: params⟩, user⟩
          = ⟨true, user, [], false⟩)) ∧
    (∀ event : HookIrcRaw, event.FromClient = false ∨ event.Message.Command ≠ "BOUNCER" →
      onMessage lib clock ext event = ⟨event.Halt, event.User, [], false⟩) := by
  refine ⟨?_, ?_, ?_, ?_⟩
  · intro event h1 h2
    simp only [onMessage, h1, h2]
    cases event.Message.Params <;> simp [Run.halted]
  · intro halt user verb verb2 params h
    simp only [onMessage, h]
  · intro halt user verb params
    refine ⟨?_, ?_, ?_, ?_, ?_, ?_, ?_, ?_, ?_, ?_⟩
    all_goals intro h
    case refine_10 =>
      simp only [verbs, List.mem_cons, List.mem_singleton, List.not_mem_nil, not_or,
        or_false] at h
      simp [onMessage, dispatch, h, Run.halted]
    all_goals simp [onMessage, dispatch, h]
  · intro event h
    rcases h with h | h
    · simp [onMessage, h]
    · simp [onMessage, h]

/-- C7, at concrete frames: `BOUNCER LISTNETWORKS` reaches commandListNetworks,
`BOUNCER bogus x` is dropped, and a frame from the server is left alone. -/
theorem onMessage_routes_by_verb_witness :
    onMessage specLib rejectingClock okExt
        ⟨true, false, ⟨"BOUNCER", ["LISTNETWORKS"]⟩, twoNetUser⟩
      = (commandListNetworks okExt twoNetUser []).halted ∧
    onMessage specLib rejectingClock okExt
        ⟨true, false, ⟨"BOUNCER", ["bogus", "x"]⟩, twoNetUser⟩
      = ⟨true, twoNetUser, [], false⟩ ∧
    onMessage specLib rejectingClock okExt
        ⟨false, false, ⟨"BOUNCER", ["listnetworks"]⟩, twoNetUser⟩
      = ⟨false, twoNetUser, [], false⟩ :=
  have h := onMessage_routes_by_verb specLib rejectingClock okExt
  ⟨(h.2.2.1 false twoNetUser "LISTNETWORKS" []).1 (by decide),
    (h.2.2.1 false twoNetUser "bogus" ["x"]).2.2.2.2.2.2.2.2.2 (by decide),
    h.2.2.2 ⟨false, false, ⟨"BOUNCER", ["listnetworks"]⟩, twoNetUser⟩ (Or.inl rfl)⟩

theorem hasStatus_last (tok line : String) (h : HasStatus tok line) :
    line.data.getLast? = (" " ++ tok).data.getLast? := by
  obtain ⟨t, ht⟩ := h
  rw [← ht]
  exact List.getLast?_append_of_ne_nil t (by simp)

theorem append_last (x y : String) (hy : y.data ≠ []) :
    (x ++ y).data.getLast? = y.data.getLast? := by
  rw [String.data_append]
  exact List.getLast?_append_of_ne_nil _ hy

theorem not_validationError_of_last (line : String) (c : Char)
    (h : line.data.getLast? = some c) (hS : c ≠ 'S') (hE : c ≠ 'E') (hD : c ≠ 'D') :
    ¬ IsValidationError line := by
  intro hv
  rcases hv with hv | hv | hv | hv
  · have := hasStatus_last _ _ hv
    rw [h] at this
    have h2 : (" " ++ "ERR_INVALIDARGS").data.getLast? = some 'S' := by decide
    rw [h2] at this
    exact hS (Option.some.inj this)
  · have := hasStatus_last _ _ hv
    rw [h] at this
    have h2 : (" " ++ "ERR_NAMEINUSE").data.getLast? = some 'E' := by decide
    rw [h2] at this
    exact hE (Option.some.inj this)
  · have := hasStatus_last _ _ hv
    rw [h] at this
    have h2 : (" " ++ "ERR_NETNOTFOUND").data.getLast? = some 'D' := by decide
    rw [h2] at this
    exact hD (Option.some.inj this)
  · have := hasStatus_last _ _ hv
    rw [h] at this
    have h2 : (" " ++ "ERR_BUFFERNOTFOUND").data.getLast? = some 'D' := by decide
    rw [h2] at this
    exact hD (Option.some.inj this)

theorem not_validationError_ok (x : String) : ¬ IsValidationError (x ++ " RPL_OK") :=
  not_validationError_of_last _ 'K'
    ((append_last x " RPL_OK" (by decide)).trans (by decide)) (by decide) (by decide) (by decide)

theorem not_validationError_network (x : String) :
    ¬ IsValidationError (x ++ " ERR_UNKNOWN :Error saving the network") :=
  not_validationError_of_last _ 'k'
    ((append_last x " ERR_UNKNOWN :Error saving the network" (by decide)).trans (by decide))
    (by decide) (by decide) (by decide)

theorem not_validationError_buffer (x : String) :
    ¬ IsValidationError (x ++ " ERR_UNKNOWN :Error saving the buffer") :=
  not_validationError_of_last _ 'r'
    ((append_last x " ERR_UNKNOWN :Error saving the buffer" (by decide)).trans (by decide))
    (by decide) (by decide) (by decide)

theorem addnetwork_error_unchanged (lib : Lib) (ext : Ext) (user : User)
    (params : List String) (line : String)
    (hmem : Event.sendLine line ∈ (commandAddNetwork lib ext user params).out)
    (hv : IsValidationError line) :
    (commandAddNetwork lib ext user params).user = user ∧
      ∀ ev ∈ (commandAddNetwork lib ext user params).out, ev.isPersistence = false := by
  cases params with
  | nil => simp [commandAddNetwork, Event.isPersistence]
  | cons block rest =>
    cases hp : lib.parseTags block with
    | none => simp [commandAddNetwork, hp, Event.isPersistence]
    | some vars =>
      by_cases hbad : tagValue vars "network" "" = "" ∨ tagValue vars "host" "" = "" ∨
          atoi (tagValue vars "port" "6667") = 0
      · simp [commandAddNetwork, hp, hbad, Event.isPersistence]
      · cases hg : getNetworkByName lib user.Networks (tagValue vars "network" "") with
        | some existing => simp [commandAddNetwork, hp, hbad, hg, Event.isPersistence]
        | none =>
          exfalso
          simp only [commandAddNetwork, hp, hbad, hg, if_false] at hmem
          by_cases hs : ext.saveFails (newConnection user vars) = true
          · simp [hs] at hmem
            subst hmem
            exact not_validationError_network _ hv
          · simp [hs] at hmem
            subst hmem
            exact not_validationError_ok _ hv

theorem changenetwork_error_unchanged (lib : Lib) (ext : Ext) (user : User)
    (params : List String) (line : String)
    (hmem : Event.sendLine line ∈ (commandChangeNetwork lib ext user params).out)
    (hv : IsValidationError line) :
    (commandChangeNetwork lib ext user params).user = user ∧
      ∀ ev ∈ (commandChangeNetwork lib ext user params).out, ev.isPersistence = false := by
  match params with
  | [] => simp [commandChangeNetwork, Event.isPersistence]
  | [_] => simp [commandChangeNetwork, Event.isPersistence]
  | netName :: block :: rest =>
    cases hp : lib.parseTags block with
    | none => simp [commandChangeNetwork, hp, Event.isPersistence]
    | some vars =>
      cases hg : getNetworkByName lib user.Networks netName with
      | none => simp [commandChangeNetwork, hp, hg, Event.isPersistence]
      | some net =>
        exfalso
        simp only [commandChangeNetwork, hp, hg] at hmem
        by_cases hpanic : (changeFields vars net).2 = true
        · simp [hpanic] at hmem
        · by_cases hs : ext.saveFails (changeFields vars net).1 = true
          · simp [hpanic, hs] at hmem
            subst hmem
            exact not_validationError_network _ hv
          · simp [hpanic, hs] at hmem
            subst hmem
            exact not_validationError_ok _ hv

theorem changebuffer_error_unchanged (lib : Lib) (clock : Clock) (ext : Ext) (user : User)
    (params : List String) (line : String)
    (hmem : Event.sendLine line ∈ (commandChangeBuffer lib clock ext user params).out)
    (hv : IsValidationError line) :
    (commandChangeBuffer lib clock ext user params).user = user ∧
      ∀ ev ∈ (commandChangeBuffer lib clock ext user params).out, ev.isPersistence = false := by
  match params with
  | [] => simp [commandChangeBuffer, Event.isPersistence]
  | [_] => simp [commandChangeBuffer, Event.isPersistence]
  | [_, _] => simp [commandChangeBuffer, Event.isPersistence]
  | netName :: bufferName :: block :: rest =>
    cases hp : lib.parseTags block with
    | none => simp [commandChangeBuffer, hp, Event.isPersistence]
    | some vars =>
      cases hg : getNetworkByName lib user.Networks netName with
      | none => simp [commandChangeBuffer, hp, hg, Event.isPersistence]
      | some net =>
        cases hb : buffersGet net.Buffers bufferName with
        | none => simp [commandChangeBuffer, hp, hg, hb, Event.isPersistence]
        | some buffer =>
          exfalso
          simp only [commandChangeBuffer, hp, hg, hb] at hmem
          rw [List.mem_append] at hmem
          rcases hmem with hmem | hmem
          · split_ifs at hmem <;> simp at hmem
          · simp only [List.mem_cons, List.mem_singleton, List.not_mem_nil, or_false] at hmem
            rcases hmem with hmem | hmem
            · cases hmem
            · split_ifs at hmem <;>
                (simp only [Event.sendLine.injEq] at hmem
                 subst hmem
                 first
                   | exact not_validationError_buffer _ hv
                   | exact not_validationError_ok _ hv)

/-- C8: whenever addnetwork, changenetwork or changebuffer sends a reply that
carries ERR_INVALIDARGS, ERR_NAMEINUSE, ERR_NETNOTFOUND or ERR_BUFFERNOTFOUND,
the user (the directory, every network and every buffer in it) is exactly as
before the command and the handler made no persistence call; and
`changenetwork unknown host=x`, on a directory in which no network answers to
`unknown`, replies ERR_NETNOTFOUND and leaves the user unchanged. -/
theorem validation_error_changes_nothing (lib : Lib) (clock : Clock) (ext : Ext) (user : User)
    (params : List String) (line : String) (hv : IsValidationError line) :
    (Event.sendLine line ∈ (commandAddNetwork lib ext user params).out →
      (commandAddNetwork lib ext user params).user = user ∧
        ∀ ev ∈ (commandAddNetwork lib ext user params).out, ev.isPersistence = false) ∧
    (Event.sendLine line ∈ (commandChangeNetwork lib ext user params).out →
      (commandChangeNetwork lib ext user params).user = user ∧
        ∀ ev ∈ (commandChangeNetwork lib ext user params).out, ev.isPersistence = false) ∧
    (Event.sendLine line ∈ (commandChangeBuffer lib clock ext user params).out →
      (commandChangeBuffer lib clock ext user params).user = user ∧
        ∀ ev ∈ (commandChangeBuffer lib clock ext user params).out,
          ev.isPersistence = false) ∧
    (∀ vars, lib.parseTags "host=x" = some vars →
      getNetworkByName lib user.Networks "unknown" = none →
      commandChangeNetwork lib ext user ["unknown", "host=x"]
        = ⟨user, [Event.sendLine "BOUNCER changenetwork * ERR_NETNOTFOUND"], false⟩) := by
  refine ⟨fun hmem => addnetwork_error_unchanged lib ext user params line hmem hv,
    fun hmem => changenetwork_error_unchanged lib ext user params line hmem hv,
    fun hmem => changebuffer_error_unchanged lib clock ext user params line hmem hv, ?_⟩
  intro vars hp hg
  simp [commandChangeNetwork, hp, hg]

/-- C8, at a concrete request: `changenetwork unknown host=x` on a directory
that holds `freenode` and `snoonet`. -/
theorem validation_error_changes_nothing_witness :
    IsValidationError "BOUNCER changenetwork * ERR_NETNOTFOUND" ∧
    (commandChangeNetwork specLib okExt twoNetUser ["unknown", "host=x"]).user = twoNetUser ∧
    (∀ ev ∈ (commandChangeNetwork specLib okExt twoNetUser ["unknown", "host=x"]).out,
      ev.isPersistence = false) ∧
    commandChangeNetwork specLib okExt twoNetUser ["unknown", "host=x"]
      = ⟨twoNetUser, [Event.sendLine "BOUNCER changenetwork * ERR_NETNOTFOUND"], false⟩ :=
  have h := validation_error_changes_nothing specLib rejectingClock okExt twoNetUser
    ["unknown", "host=x"] "BOUNCER changenetwork * ERR_NETNOTFOUND" (by decide)
  ⟨by decide, (h.2.1 (by decide)).1, (h.2.1 (by decide)).2,
    h.2.2.2 [("host", ⟨true, "x"⟩)] (by decide) (by decide)⟩

/-! ## Preservation of the directory invariant -/

theorem directoryInv_of_names (lib : Lib) (a b : Networks)
    (h : a.map (fun e => (e.1, e.2.Name)) = b.map (fun e => (e.1, e.2.Name)))
    (ha : DirectoryInv lib a) : DirectoryInv lib b := by
  obtain ⟨hk, hu⟩ := ha
  constructor
  · intro e he
    have hm : (e.1, e.2.Name) ∈ a.map (fun e => (e.1, e.2.Name)) := by
      rw [h]
      exact List.mem_map_of_mem _ he
    obtain ⟨e1, he1, heq⟩ := List.mem_map.1 hm
    simp only [Prod.mk.injEq] at heq
    rw [← heq.1, ← heq.2]
    exact hk e1 he1
  · have h1 : (a.map (fun e => (e.1, e.2.Name))).Pairwise
        (fun p q : String × String => lib.toLower p.2 ≠ lib.toLower q.2) :=
      List.pairwise_map.2 hu
    rw [h] at h1
    exact (List.pairwise_map (f := fun e : String × ServerConnection => (e.1, e.2.Name))
      (R := fun p q : String × String => lib.toLower p.2 ≠ lib.toLower q.2)).1 h1

theorem storeNetwork_inv (lib : Lib) (nets : Networks) (n : String)
    (net net1 : ServerConnection) (hget : getNetworkByName lib nets n = some net)
    (hname : net1.Name = net.Name) (hinv : DirectoryInv lib nets) :
    DirectoryInv lib (storeNetwork lib nets n net1) := by
  obtain ⟨pre, key, post, hsplit, -, -, hstore⟩ := getNetworkByName_split lib nets n net hget
  apply directoryInv_of_names lib nets _ _ hinv
  rw [hstore, hsplit]
  simp [hname]

theorem mapDelete_inv (lib : Lib) (nets : Networks) (key : String)
    (hinv : DirectoryInv lib nets) : DirectoryInv lib (mapDelete nets key) := by
  obtain ⟨hk, hu⟩ := hinv
  exact ⟨fun e he => hk e (List.mem_of_mem_filter he), List.Pairwise.filter _ hu⟩

theorem mapSet_inv (lib : Lib) (nets : Networks) (net : ServerConnection)
    (hnone : getNetworkByName lib nets net.Name = none) (hinv : DirectoryInv lib nets) :
    DirectoryInv lib (mapSet nets net.Name net) := by
  obtain ⟨hk, hu⟩ := hinv
  have hfresh := (getNetworkByName_eq_none lib nets net.Name).1 hnone
  have hkey : ∀ e ∈ nets, e.1 ≠ net.Name := by
    intro e he heq
    exact hfresh e he (by rw [← hk e he, heq])
  rw [mapSet_of_not_mem nets net.Name net hkey]
  constructor
  · intro e he
    rcases List.mem_append.1 he with he | he
    · exact hk e he
    · simp only [List.mem_singleton] at he
      subst he
      rfl
  · unfold UniqueNames
    rw [List.pairwise_append]
    refine ⟨hu, List.pairwise_singleton _ _, ?_⟩
    intro a ha b hb
    simp only [List.mem_singleton] at hb
    subst hb
    exact hfresh a ha

theorem connect_inv (lib : Lib) (ext : Ext) (user : User) (params : List String)
    (hinv : DirectoryInv lib user.Networks) :
    DirectoryInv lib (commandConnectNetwork lib ext user params).user.Networks := by
  cases params with
  | nil => exact hinv
  | cons netName rest =>
    cases hg : getNetworkByName lib user.Networks netName with
    | none => simpa [commandConnectNetwork, hg] using hinv
    | some net =>
      simp only [commandConnectNetwork, hg]
      exact storeNetwork_inv lib _ _ net _ hg rfl hinv

theorem disconnect_inv (lib : Lib) (ext : Ext) (user : User) (params : List String)
    (hinv : DirectoryInv lib user.Networks) :
    DirectoryInv lib (commandDisconnectNetwork lib ext user params).user.Networks := by
  cases params with
  | nil => exact hinv
  | cons netName rest =>
    cases hg : getNetworkByName lib user.Networks netName with
    | none => simpa [commandDisconnectNetwork, hg] using hinv
    | some net =>
      simp only [commandDisconnectNetwork, hg]
      exact storeNetwork_inv lib _ _ net _ hg rfl hinv

theorem listnetworks_user (ext : Ext) (user : User) (params : List String) :
    (commandListNetworks ext user params).user = user := by
  unfold commandListNetworks
  split_ifs <;> rfl

theorem listbuffers_user (lib : Lib) (clock : Clock) (ext : Ext) (user : User)
    (params : List String) :
    (commandListBuffers lib clock ext user params).user = user := by
  cases params with
  | nil => rfl
  | cons netName rest =>
    cases hg : getNetworkByName lib user.Networks netName <;> simp [commandListBuffers, hg]

theorem delbuffer_inv (lib : Lib) (user : User) (params : List String)
    (hinv : DirectoryInv lib user.Networks) :
    DirectoryInv lib (commandDelBuffer lib user params).user.Networks := by
  match params with
  | [] => exact hinv
  | [_] => exact hinv
  | netName :: bufferName :: rest =>
    cases hg : getNetworkByName lib user.Networks netName with
    | none => simpa [commandDelBuffer, hg] using hinv
    | some net =>
      simp only [commandDelBuffer, hg]
      exact storeNetwork_inv lib _ _ net _ hg rfl hinv

theorem delnetwork_inv (lib : Lib) (ext : Ext) (user : User) (params : List String)
    (hinv : DirectoryInv lib user.Networks) :
    DirectoryInv lib (commandDelNetwork lib ext user params).user.Networks := by
  cases params with
  | nil => exact hinv
  | cons netName rest =>
    cases hg : getNetworkByName lib user.Networks netName with
    | none => simpa [commandDelNetwork, hg] using hinv
    | some net =>
      simp only [commandDelNetwork, hg]
      exact mapDelete_inv lib _ _ (storeNetwork_inv lib _ _ net _ hg rfl hinv)

theorem addnetwork_inv (lib : Lib) (ext : Ext) (user : User) (params : List String)
    (hinv : DirectoryInv lib user.Networks) :
    DirectoryInv lib (commandAddNetwork lib ext user params).user.Networks := by
  cases params with
  | nil => exact hinv
  | cons block rest =>
    cases hp : lib.parseTags block with
    | none => simpa [commandAddNetwork, hp] using hinv
    | some vars =>
      by_cases hbad : tagValue vars "network" "" = "" ∨ tagValue vars "host" "" = "" ∨
          atoi (tagValue vars "port" "6667") = 0
      · simpa [commandAddNetwork, hp, hbad] using hinv
      · cases hg : getNetworkByName lib user.Networks (tagValue vars "network" "") with
        | some existing => simpa [commandAddNetwork, hp, hbad, hg] using hinv
        | none =>
          simp only [commandAddNetwork, hp, hbad, hg, if_false]
          exact mapSet_inv lib _ (newConnection user vars) hg hinv

theorem changenetwork_inv (lib : Lib) (ext : Ext) (user : User) (params : List String)
    (hinv : DirectoryInv lib user.Networks) :
    DirectoryInv lib (commandChangeNetwork lib ext user params).user.Networks := by
  match params with
  | [] => exact hinv
  | [_] => exact hinv
  | netName :: block :: rest =>
    cases hp : lib.parseTags block with
    | none => simpa [commandChangeNetwork, hp] using hinv
    | some vars =>
      cases hg : getNetworkByName lib user.Networks netName with
      | none => simpa [commandChangeNetwork, hp, hg] using hinv
      | some net =>
        have hst := storeNetwork_inv lib _ _ net (changeFields vars net).1 hg
          (changeFields_frame vars net).1 hinv
        simp only [commandChangeNetwork, hp, hg]
        split_ifs <;> exact hst

theorem changebuffer_inv (lib : Lib) (clock : Clock) (ext : Ext) (user : User)
    (params : List String) (hinv : DirectoryInv lib user.Networks) :
    DirectoryInv lib (commandChangeBuffer lib clock ext user params).user.Networks := by
  match params with
  | [] => exact hinv
  | [_] => exact hinv
  | [_, _] => exact hinv
  | netName :: bufferName :: block :: rest =>
    cases hp : lib.parseTags block with
    | none => simpa [commandChangeBuffer, hp] using hinv
    | some vars =>
      cases hg : getNetworkByName lib user.Networks netName with
      | none => simpa [commandChangeBuffer, hp, hg] using hinv
      | some net =>
        cases hb : buffersGet net.Buffers bufferName with
        | none => simpa [commandChangeBuffer, hp, hg, hb] using hinv
        | some buffer =>
          simp only [commandChangeBuffer, hp, hg, hb]
          exact storeNetwork_inv lib _ _ net _ hg rfl hinv

theorem dispatch_inv (lib : Lib) (clock : Clock) (ext : Ext) (user : User) (command : String)
    (params : List String) (hinv : DirectoryInv lib user.Networks) :
    DirectoryInv lib (dispatch lib clock ext user command params).user.Networks := by
  unfold dispatch
  split_ifs
  · rw [listnetworks_user]; exact hinv
  · exact addnetwork_inv lib ext user params hinv
  · exact changenetwork_inv lib ext user params hinv
  · exact connect_inv lib ext user params hinv
  · exact disconnect_inv lib ext user params hinv
  · rw [listbuffers_user]; exact hinv
  · exact changebuffer_inv lib clock ext user params hinv
  · exact delbuffer_inv lib user params hinv
  · exact delnetwork_inv lib ext user params hinv
  · exact hinv

theorem onMessage_inv (lib : Lib) (clock : Clock) (ext : Ext) (event : HookIrcRaw)
    (hinv : DirectoryInv lib event.User.Networks) :
    DirectoryInv lib (onMessage lib clock ext event).user.Networks := by
  unfold onMessage
  split_ifs
  · exact hinv
  · exact hinv
  · cases hparams : event.Message.Params with
    | nil => exact hinv
    | cons verb params => exact dispatch_inv lib clock ext event.User _ params hinv

theorem runFrames_inv (lib : Lib) (clock : Clock) (frames : List Frame) (user : User)
    (hinv : DirectoryInv lib user.Networks) :
    DirectoryInv lib (runFrames lib clock user frames).Networks := by
  induction frames generalizing user with
  | nil => exact hinv
  | cons f rest ih =>
    exact ih _ (onMessage_inv lib clock f.ext ⟨f.FromClient, false, f.Message, user⟩ hinv)

/-- C9: the invariant of the directory (every key is the Name of the network
under it, and no two networks have names equal ignoring case) holds after each
of the nine handlers, with any parameters and whether or not the handler
panicked, whenever it held before; hence after onMessage on any frame, after
any sequence of frames, and in particular after any sequence of frames that
starts from an empty directory. -/
theorem directory_invariant_preserved (lib : Lib) (clock : Clock) (ext : Ext) (user : User)
    (params : List String) (hinv : DirectoryInv lib user.Networks) :
    DirectoryInv lib (commandAddNetwork lib ext user params).user.Networks ∧
    DirectoryInv lib (commandChangeNetwork lib ext user params).user.Networks ∧
    DirectoryInv lib (commandConnectNetwork lib ext user params).user.Networks ∧
    DirectoryInv lib (commandDisconnectNetwork lib ext user params).user.Networks ∧
    DirectoryInv lib (commandDelNetwork lib ext user params).user.Networks ∧
    DirectoryInv lib (commandListNetworks ext user params).user.Networks ∧
    DirectoryInv lib (commandListBuffers lib clock ext user params).user.Networks ∧
    DirectoryInv lib (commandChangeBuffer lib clock ext user params).user.Networks ∧
    DirectoryInv lib (commandDelBuffer lib user params).user.Networks ∧
    (∀ (fromClient halt : Bool) (msg : IrcMessage),
      DirectoryInv lib (onMessage lib clock ext ⟨fromClient, halt, msg, user⟩).user.Networks) ∧
    (∀ frames : List Frame, DirectoryInv lib (runFrames lib clock user frames).Networks) ∧
    (∀ (start : User) (frames : List Frame), start.Networks = [] →
      DirectoryInv lib (runFrames lib clock start frames).Networks) := by
  refine ⟨addnetwork_inv lib ext user params hinv, changenetwork_inv lib ext user params hinv,
    connect_inv lib ext user params hinv, disconnect_inv lib ext user params hinv,
    delnetwork_inv lib ext user params hinv, ?_, ?_,
    changebuffer_inv lib clock ext user params hinv, delbuffer_inv lib user params hinv,
    ?_, ?_, ?_⟩
  · rw [listnetworks_user]; exact hinv
  · rw [listbuffers_user]; exact hinv
  · intro fromClient halt msg
    exact onMessage_inv lib clock ext ⟨fromClient, halt, msg, user⟩ hinv
  · intro frames
    exact runFrames_inv lib clock frames user hinv
  · intro start frames hstart
    apply runFrames_inv lib clock frames start
    rw [hstart]
    exact ⟨fun e he => by simp at he, List.Pairwise.nil⟩

/-- C9, at a concrete state: the directory that holds `freenode` and `snoonet`
satisfies the invariant, and keeps it through `addnetwork` of a third network. -/
theorem directory_invariant_preserved_witness :
    DirectoryInv specLib twoNetUser.Networks ∧
    DirectoryInv specLib
      (commandAddNetwork specLib okExt twoNetUser ["network=oftc;host=irc.oftc.net"]).user.Networks ∧
    (commandAddNetwork specLib okExt twoNetUser
      ["network=oftc;host=irc.oftc.net"]).user.Networks.length = 3 :=
  ⟨by decide,
    (directory_invariant_preserved specLib rejectingClock okExt twoNetUser
      ["network=oftc;host=irc.oftc.net"] (by decide)).1,
    by decide⟩

theorem mapSet_mem (nets : Networks) (key : String) (net : ServerConnection) :
    (key, net) ∈ mapSet nets key net := by
  induction nets with
  | nil => simp [mapSet]
  | cons e rest ih =>
    obtain ⟨k, v⟩ := e
    by_cases hk : k = key
    · simp [mapSet, hk]
    · simp only [mapSet, hk, if_false]
      exact List.mem_cons_of_mem _ ih

theorem not_ok_of_last (line : String) (c : Char) (h : line.data.getLast? = some c)
    (hc : c ≠ 'K') : ¬ HasStatus "RPL_OK" line := by
  intro hs
  have := hasStatus_last _ _ hs
  rw [h] at this
  have h2 : (" " ++ "RPL_OK").data.getLast? = some 'K' := by decide
  rw [h2] at this
  exact hc (Option.some.inj this)

/-- C10: when addnetwork answers RPL_OK, its first parameter decoded to tags
and the directory holds, under the network tag's value, a network that was
also handed to SaveConnection and whose fields are: the name, the network
value; one address, made of the host value, the port value read by Atoi (6667
when there is no port tag), UseTLS true exactly when the tls value is "1"
(false when there is no tls tag) and VerifyTLS false; nickname, username and
realname, the tag value when it is not empty and the user's DefaultNick,
DefaultUser, DefaultReal otherwise; the password, the password value, empty
when there is no password tag. -/
theorem addnetwork_created_fields (lib : Lib) (ext : Ext) (user : User) (params : List String)
    (line : String)
    (hmem : Event.sendLine line ∈ (commandAddNetwork lib ext user params).out)
    (hok : HasStatus "RPL_OK" line) :
    ∃ block rest vars conn,
      params = block :: rest ∧ lib.parseTags block = some vars ∧
      (tagValue vars "network" "", conn) ∈
        (commandAddNetwork lib ext user params).user.Networks ∧
      Event.saveConnection conn ∈ (commandAddNetwork lib ext user params).out ∧
      conn.Name = tagValue vars "network" "" ∧
      conn.Addresses =
        [{ Host := tagValue vars "host" "", Port := atoi (tagValue vars "port" "6667"),
           UseTLS := decide (tagValue vars "tls" "0" = "1"), VerifyTLS := false }] ∧
      (vars.lookup "port" = none → conn.Addresses.map (fun a => a.Port) = [6667]) ∧
      (vars.lookup "tls" = none → conn.Addresses.map (fun a => a.UseTLS) = [false]) ∧
      conn.Nickname =
        (if tagValue vars "nick" "" ≠ "" then tagValue vars "nick" "" else user.DefaultNick) ∧
      conn.Username =
        (if tagValue vars "user" "" ≠ "" then tagValue vars "user" "" else user.DefaultUser) ∧
      conn.Realname =
        (if tagValue vars "realname" "" ≠ "" then tagValue vars "realname" ""
         else user.DefaultReal) ∧
      conn.Password = tagValue vars "password" "" ∧
      (vars.lookup "password" = none → conn.Password = "") ∧
      conn.Buffers = [] ∧ conn.Foo.Connected = false := by
  have hbadline : ¬ HasStatus "RPL_OK" "BOUNCER addnetwork * ERR_INVALIDARGS" := by decide
  cases params with
  | nil =>
    simp only [commandAddNetwork, List.mem_singleton, Event.sendLine.injEq] at hmem
    subst hmem
    exact absurd hok hbadline
  | cons block rest =>
    cases hp : lib.parseTags block with
    | none =>
      simp only [commandAddNetwork, hp, List.mem_singleton, Event.sendLine.injEq] at hmem
      subst hmem
      exact absurd hok hbadline
    | some vars =>
      by_cases hbad : tagValue vars "network" "" = "" ∨ tagValue vars "host" "" = "" ∨
          atoi (tagValue vars "port" "6667") = 0
      · simp only [commandAddNetwork, hp, hbad, if_true, List.mem_singleton,
          Event.sendLine.injEq] at hmem
        subst hmem
        exact absurd hok hbadline
      · cases hg : getNetworkByName lib user.Networks (tagValue vars "network" "") with
        | some existing =>
          simp only [commandAddNetwork, hp, hbad, hg, if_false, List.mem_singleton,
            Event.sendLine.injEq] at hmem
          subst hmem
          exact absurd hok (not_ok_of_last _ 'E'
            ((append_last _ " ERR_NAMEINUSE" (by decide)).trans (by decide)) (by decide))
        | none =>
          have hrun : (commandAddNetwork lib ext user (block :: rest)).user.Networks
              = mapSet user.Networks (tagValue vars "network" "") (newConnection user vars) := by
            simp only [commandAddNetwork, hp, hbad, hg, if_false]
            rfl
          have hout : Event.saveConnection (newConnection user vars) ∈
              (commandAddNetwork lib ext user (block :: rest)).out := by
            simp only [commandAddNetwork, hp, hbad, hg, if_false]
            exact List.mem_cons_self _ _
          refine ⟨block, rest, vars, newConnection user vars, rfl, hp, ?_, hout, rfl, ?_, ?_,
            ?_, rfl, rfl, rfl, rfl, ?_, rfl, rfl⟩
          · rw [hrun]
            exact mapSet_mem _ _ _
          · simp [newConnection, NewServerConnection]
          · intro h
            have h6667 : atoi "6667" = 6667 := by decide
            simp [newConnection, NewServerConnection, tagValue_absent vars _ _ h, h6667]
          · intro h
            simp [newConnection, NewServerConnection, tagValue_absent vars _ _ h]
          · intro h
            simp [newConnection, NewServerConnection, tagValue_absent vars _ _ h]

/-- C10, at a concrete request: `network=oftc;host=irc.oftc.net;tls=1` for a
user whose directory holds `snoonet`. -/
theorem addnetwork_created_fields_witness :
    ∃ block rest vars conn,
      ["network=oftc;host=irc.oftc.net;tls=1"] = block :: rest ∧
      specLib.parseTags block = some vars ∧
      (tagValue vars "network" "", conn) ∈
        (commandAddNetwork specLib okExt snoonetUser
          ["network=oftc;host=irc.oftc.net;tls=1"]).user.Networks ∧
      conn.Addresses =
        [{ Host := tagValue vars "host" "", Port := atoi (tagValue vars "port" "6667"),
           UseTLS := decide (tagValue vars "tls" "0" = "1"), VerifyTLS := false }] ∧
      (vars.lookup "port" = none → conn.Addresses.map (fun a => a.Port) = [6667]) :=
  have ⟨block, rest, vars, conn, h1, h2, h3, _, _, h6, h7, _⟩ :=
    addnetwork_created_fields specLib okExt snoonetUser
      ["network=oftc;host=irc.oftc.net;tls=1"] "BOUNCER addnetwork oftc RPL_OK"
      (by decide) (by decide)
  ⟨block, rest, vars, conn, h1, h2, h3, h6, h7⟩

/-- C11 as stated fails for the password: `changenetwork secured password=` on
a network whose password is `secret` leaves it with the empty password. The
tag is supplied with an empty value, tagValue gives "", and line 349 tests the
value against the sentinel "." only. -/
theorem changenetwork_empty_password_counterexample :
    specLib.parseTags "password=" = some [("password", ⟨true, ""⟩)] ∧
    getNetworkByName specLib securedUser.Networks "secured" = some securedNet ∧
    securedNet.Password = "secret" ∧
    commandChangeNetwork specLib okExt securedUser ["secured", "password="]
      = ⟨{ securedUser with Networks := [("secured", { securedNet with Password := "" })] },
          [Event.saveConnection { securedNet with Password := "" },
            Event.sendLine "BOUNCER changenetwork secured RPL_OK"], false⟩ := by
  decide

/-- C11, amended: in commandChangeNetwork a host, port, nick or user tag that
is supplied with an empty value (a bare key or `key=`) leaves its field as it
was, and tls changes only for the values "0" and "1". The password is kept for
an absent tag and for the sentinel "."; a password tag supplied with an empty
value sets the password to the empty text (whenever the handler gets to line
348, that is unless a host or port assignment panicked on a network without
addresses). -/
theorem changenetwork_empty_values (lib : Lib) (ext : Ext) (user : User)
    (netName block : String) (rest : List String) (vars : Tags) (net : ServerConnection)
    (hparse : lib.parseTags block = some vars)
    (hget : getNetworkByName lib user.Networks netName = some net) :
    ∃ pre key post,
      user.Networks = pre ++ (key, net) :: post ∧
      (commandChangeNetwork lib ext user (netName :: block :: rest)).user
        = { user with Networks := pre ++ (key, (changeFields vars net).1) :: post } ∧
      (tagValue vars "host" "" = "" →
        (changeFields vars net).1.Addresses.map (fun a => a.Host)
          = net.Addresses.map (fun a => a.Host)) ∧
      (tagValue vars "port" "0" = "" →
        (changeFields vars net).1.Addresses.map (fun a => a.Port)
          = net.Addresses.map (fun a => a.Port)) ∧
      (tagValue vars "nick" "" = "" → (changeFields vars net).1.Nickname = net.Nickname) ∧
      (tagValue vars "user" "" = "" → (changeFields vars net).1.Username = net.Username) ∧
      (tagValue vars "tls" "" ≠ "0" → tagValue vars "tls" "" ≠ "1" →
        (changeFields vars net).1.Addresses.map (fun a => a.UseTLS)
          = net.Addresses.map (fun a => a.UseTLS)) ∧
      (vars.lookup "password" = none ∨ tagValue vars "password" "." = "." →
        (changeFields vars net).1.Password = net.Password) ∧
      (tagValue vars "password" "." = "" →
        net.Addresses ≠ [] ∨
          (tagValue vars "host" "" = "" ∧ atoi (tagValue vars "port" "0") ≤ 0) →
        (changeFields vars net).1.Password = "") := by
  obtain ⟨pre, key, post, hsplit, -, -, hstore⟩ :=
    getNetworkByName_split lib user.Networks netName net hget
  obtain ⟨-, -, -, -, -, -, -, f8, f9, f10, f11, f12, f13⟩ := changeFields_frame vars net
  refine ⟨pre, key, post, hsplit, ?_, f8, ?_, f11, f12, fun h0 h1 => f13 h1 h0, ?_, ?_⟩
  · simp only [commandChangeNetwork, hparse, hget]
    split_ifs <;> simp only [hstore]
  · intro h
    apply f9
    rw [h]
    decide
  · intro h
    rcases h with h | h
    · exact f10 (tagValue_absent vars _ _ h)
    · exact f10 h
  · intro hpw hreach
    have hne : ("" : String) ≠ "." := by decide
    rcases hA : net.Addresses with _ | ⟨a, as⟩
    · rw [changeFields_nil vars net hA]
      rcases hreach with hreach | ⟨hh, hp⟩
      · exact absurd hA hreach
      · have hc : ¬ (tagValue vars "host" "" ≠ "" ∨ atoi (tagValue vars "port" "0") > 0) := by
          intro hc
          rcases hc with hc | hc
          · exact hc hh
          · exact absurd hc (not_lt.2 hp)
        rw [if_neg hc]
        simp [setCredentials, hpw]
    · rw [changeFields_cons vars net a as hA]
      simp [hpw]

/-- C11 amended, at a concrete request: `changenetwork secured nick=;password=`
keeps the nickname and empties the password. -/
theorem changenetwork_empty_values_witness :
    (changeFields [("password", ⟨true, ""⟩), ("nick", ⟨true, ""⟩)] securedNet).1.Nickname
      = securedNet.Nickname ∧
    (changeFields [("password", ⟨true, ""⟩), ("nick", ⟨true, ""⟩)] securedNet).1.Password
      = "" :=
  have ⟨_, _, _, _, _, _, _, h3, _, _, _, h7⟩ :=
    changenetwork_empty_values specLib okExt securedUser "secured" "nick=;password=" []
      [("password", ⟨true, ""⟩), ("nick", ⟨true, ""⟩)] securedNet (by decide) (by decide)
  ⟨h3 (by decide), h7 (by decide) (Or.inl (by decide))⟩

theorem listNetworksLoop_items (ext : Ext) (nets : Networks) (h : HasAddresses nets) :
    (listNetworksLoop ext nets).2 = false ∧
    List.Forall₂
      (fun (e : String × ServerConnection) (ev : Event) =>
        ∃ a rest p, e.2.Addresses = a :: rest ∧
          p.Perm
            ([("network", e.2.Name), ("nick", e.2.Nickname), ("user", e.2.Username),
                ("host", a.Host), ("port", itoa a.Port), ("password", e.2.Password),
                ("tls", if a.UseTLS then "1" else "0")] ++
              (if e.2.Foo.Connected then
                [("state", "connected"), ("currentNick", e.2.Foo.Nick)]
               else [("state", "disconnected")])) ∧
          ev = Event.sendLine ("BOUNCER listnetworks " ++ specFieldsText p))
      nets (listNetworksLoop ext nets).1 := by
  induction nets with
  | nil => exact ⟨rfl, List.Forall₂.nil⟩
  | cons e rest ih =>
    obtain ⟨k, v⟩ := e
    have hv : v.Addresses ≠ [] := h (k, v) (by simp)
    obtain ⟨hp, hitems⟩ := ih (fun e he => h e (List.mem_cons_of_mem _ he))
    obtain ⟨a, as, ha⟩ := List.exists_cons_of_ne_nil hv
    have hvals : networkVals v = some
        ([("network", v.Name), ("nick", v.Nickname), ("user", v.Username),
            ("host", a.Host), ("port", itoa a.Port), ("password", v.Password),
            ("tls", if a.UseTLS then "1" else "0")] ++
          (if v.Foo.Connected then [("state", "connected"), ("currentNick", v.Foo.Nick)]
           else [("state", "disconnected")])) := by
      simp [networkVals, ha]
    refine ⟨by simp [listNetworksLoop, hvals, hp], ?_⟩
    simp only [listNetworksLoop, hvals]
    exact List.Forall₂.cons
      ⟨a, as, _, ha, rangeVals_perm _ _, by rw [valsLine_eq_specFieldsText]⟩ hitems

/-- C12: on a directory of n networks, each with an address, commandListNetworks
returns without a panic, leaves the user as it was, and sends exactly n+1
lines. For each network, in the order of the iteration, it sends one line whose
text is "BOUNCER listnetworks " followed by the concatenation of `key=value;`
over the fields network, nick, user, host, port, password, tls ("1" or "0")
and state, taken in the order the runtime visits them; state is "connected",
with a currentNick field beside it, when the network is connected, and
"disconnected", with no currentNick field, otherwise. The last line is
"BOUNCER listnetworks end". -/
theorem listnetworks_lines (ext : Ext) (user : User) (params : List String)
    (haddr : HasAddresses user.Networks) :
    (commandListNetworks ext user params).panicked = false ∧
    (commandListNetworks ext user params).user = user ∧
    (commandListNetworks ext user params).out.length = user.Networks.length + 1 ∧
    ∃ items,
      (commandListNetworks ext user params).out
        = items ++ [Event.sendLine "BOUNCER listnetworks end"] ∧
      List.Forall₂
        (fun (e : String × ServerConnection) (ev : Event) =>
          ∃ a rest p, e.2.Addresses = a :: rest ∧
            p.Perm
              ([("network", e.2.Name), ("nick", e.2.Nickname), ("user", e.2.Username),
                  ("host", a.Host), ("port", itoa a.Port), ("password", e.2.Password),
                  ("tls", if a.UseTLS then "1" else "0")] ++
                (if e.2.Foo.Connected then
                  [("state", "connected"), ("currentNick", e.2.Foo.Nick)]
                 else [("state", "disconnected")])) ∧
            ev = Event.sendLine ("BOUNCER listnetworks " ++ specFieldsText p))
        user.Networks items := by
  obtain ⟨hp, hitems⟩ := listNetworksLoop_items ext user.Networks haddr
  have hout : (commandListNetworks ext user params).out
      = (listNetworksLoop ext user.Networks).1 ++
        [Event.sendLine "BOUNCER listnetworks end"] := by
    simp [commandListNetworks, hp]
  refine ⟨by simp [commandListNetworks, hp], listnetworks_user ext user params, ?_,
    (listNetworksLoop ext user.Networks).1, hout, hitems⟩
  rw [hout, List.length_append, ← hitems.length_eq]
  rfl

/-- C12, at a concrete directory: `freenode` and `snoonet` give two item lines
and the end line, here with a runtime that visits the fields in the order of
their assignment, and with one that visits them in another order. -/
theorem listnetworks_lines_witness :
    (commandListNetworks okExt twoNetUser []).panicked = false ∧
    (commandListNetworks okExt twoNetUser []).user = twoNetUser ∧
    (commandListNetworks okExt twoNetUser []).out.length = 3 ∧
    (commandListNetworks okExt twoNetUser []).out
      = [Event.sendLine ("BOUNCER listnetworks network=freenode;nick=nick1;user=user0;" ++
            "host=irc.freenode.net;port=6667;password=;tls=0;state=disconnected;"),
          Event.sendLine ("BOUNCER listnetworks network=snoonet;nick=nick0;user=user0;" ++
            "host=irc.snoonet.org;port=6697;password=;tls=1;state=disconnected;"),
          Event.sendLine "BOUNCER listnetworks end"] ∧
    (commandListNetworks shuffledExt twoNetUser []).out
      = [Event.sendLine ("BOUNCER listnetworks user=user0;nick=nick1;network=freenode;" ++
            "host=irc.freenode.net;port=6667;password=;tls=0;state=disconnected;"),
          Event.sendLine ("BOUNCER listnetworks user=user0;nick=nick0;network=snoonet;" ++
            "host=irc.snoonet.org;port=6697;password=;tls=1;state=disconnected;"),
          Event.sendLine "BOUNCER listnetworks end"] :=
  have h := listnetworks_lines okExt twoNetUser [] (by decide)
  ⟨h.1, h.2.1, h.2.2.1, by decide, by decide⟩

theorem listbuffers_items (clock : Clock) (ext : Ext) (netName : String)
    (net : ServerConnection) (bufs : Buffers) :
    List.Forall₂
      (fun (e : String × ServerConnectionBuffer) (ev : Event) =>
        ∃ p,
          p.Perm
            ([("network", net.Name), ("buffer", e.2.Name),
                ("seen", clock.formatTime e.2.LastSeen)] ++
              (if e.2.Channel then [("channel", "1"), ("topic", ""), ("joined", "1")]
               else [])) ∧
          ev = Event.send ["listbuffers", netName, specFieldsText p])
      bufs
      (bufs.map (fun e =>
        Event.send ["listbuffers", netName,
          valsLine (rangeVals (ext.rangeOrder (bufferVals clock net e.2))
            (bufferVals clock net e.2))])) := by
  induction bufs with
  | nil => exact List.Forall₂.nil
  | cons e rest ih =>
    simp only [List.map_cons]
    refine List.Forall₂.cons
      ⟨rangeVals (ext.rangeOrder (bufferVals clock net e.2)) (bufferVals clock net e.2),
        rangeVals_perm _ _, ?_⟩ ih
    rw [valsLine_eq_specFieldsText]

/-- C13: on an existing network of n buffers commandListBuffers returns
without a panic, leaves the user as it was, and sends n item lines and then
the one line "BOUNCER listbuffers <network name> end"; with no buffer it sends
that end line alone. For each buffer, in the order of the iteration, the item
is a `Send` of `listbuffers`, the network as the client wrote it, and the
concatenation of `key=value;` over the fields network, buffer and seen, and
also channel, topic and joined exactly when the buffer is a channel, taken in
the order the runtime visits them. -/
theorem listbuffers_lines (lib : Lib) (clock : Clock) (ext : Ext) (user : User)
    (netName : String) (rest : List String) (net : ServerConnection)
    (hget : getNetworkByName lib user.Networks netName = some net) :
    (commandListBuffers lib clock ext user (netName :: rest)).panicked = false ∧
    (commandListBuffers lib clock ext user (netName :: rest)).user = user ∧
    (∃ items,
      (commandListBuffers lib clock ext user (netName :: rest)).out
        = items ++ [Event.sendLine ("BOUNCER listbuffers " ++ net.Name ++ " end")] ∧
      List.Forall₂
        (fun (e : String × ServerConnectionBuffer) (ev : Event) =>
          ∃ p,
            p.Perm
              ([("network", net.Name), ("buffer", e.2.Name),
                  ("seen", clock.formatTime e.2.LastSeen)] ++
                (if e.2.Channel then [("channel", "1"), ("topic", ""), ("joined", "1")]
                 else [])) ∧
            ev = Event.send ["listbuffers", netName, specFieldsText p])
        net.Buffers items) ∧
    (commandListBuffers lib clock ext user (netName :: rest)).out.length
      = net.Buffers.length + 1 ∧
    (net.Buffers = [] →
      (commandListBuffers lib clock ext user (netName :: rest)).out
        = [Event.sendLine ("BOUNCER listbuffers " ++ net.Name ++ " end")]) := by
  have hout : (commandListBuffers lib clock ext user (netName :: rest)).out
      = net.Buffers.map (fun e =>
          Event.send ["listbuffers", netName,
            valsLine (rangeVals (ext.rangeOrder (bufferVals clock net e.2))
              (bufferVals clock net e.2))]) ++
        [Event.sendLine ("BOUNCER listbuffers " ++ net.Name ++ " end")] := by
    simp [commandListBuffers, hget]
  refine ⟨by simp [commandListBuffers, hget], listbuffers_user lib clock ext user _,
    ⟨_, hout, ?_⟩, ?_, ?_⟩
  · have h := listbuffers_items clock ext netName net net.Buffers
    simpa [bufferVals] using h
  · rw [hout]
    simp
  · intro hnil
    rw [hout, hnil]
    rfl

/-- C13, at concrete networks: `freenode` has the one buffer `#chan`, a
channel, last seen at 2024-01-02T03:04:05Z, and `snoonet` has no buffer. -/
theorem listbuffers_lines_witness :
    (commandListBuffers specLib stampClock okExt seenUser ["freenode"]).out
      = [Event.send ["listbuffers", "freenode",
            "network=freenode;buffer=#chan;seen=2024-01-02T03:04:05Z;channel=1;topic=;joined=1;"],
          Event.sendLine "BOUNCER listbuffers freenode end"] ∧
    (commandListBuffers specLib stampClock okExt seenUser ["freenode"]).out.length = 2 ∧
    (commandListBuffers specLib stampClock okExt seenUser ["snoonet"]).out
      = [Event.sendLine ("BOUNCER listbuffers " ++ "snoonet" ++ " end")] :=
  ⟨by decide,
    (listbuffers_lines specLib stampClock okExt seenUser "freenode" [] seenNet
      (by decide)).2.2.2.1,
    (listbuffers_lines specLib stampClock okExt seenUser "snoonet" [] snoonet
      (by decide)).2.2.2.2 (by decide)⟩

theorem buffersGet_store_same (bs : Buffers) (name : String) (b b1 : ServerConnectionBuffer)
    (h : buffersGet bs name = some b) : buffersGet (buffersStore bs name b1) name = some b1 := by
  induction bs with
  | nil => simp [buffersGet] at h
  | cons e rest ih =>
    obtain ⟨k, v⟩ := e
    by_cases hk : k = name
    · simp [buffersStore, buffersGet, List.lookup, hk]
    · have hk2 : (name == k) = false := by simpa using fun h => hk h.symm
      simp only [buffersGet, List.lookup, hk2] at h
      simp only [buffersStore, hk, if_false, buffersGet, List.lookup, hk2]
      exact ih h

theorem buffersGet_store_other (bs : Buffers) (name other : String)
    (b1 : ServerConnectionBuffer) (h : other ≠ name) :
    buffersGet (buffersStore bs name b1) other = buffersGet bs other := by
  induction bs with
  | nil => rfl
  | cons e rest ih =>
    obtain ⟨k, v⟩ := e
    by_cases hk : k = name
    · subst hk
      have hk2 : (other == k) = false := by simpa using h
      simp [buffersStore, buffersGet, List.lookup, hk2]
    · simp only [buffersStore, hk, if_false, buffersGet, List.lookup]
      cases hok : other == k
      · exact ih
      · rfl

theorem buffersStore_self (bs : Buffers) (name : String) (b : ServerConnectionBuffer)
    (h : buffersGet bs name = some b) : buffersStore bs name b = bs := by
  induction bs with
  | nil => rfl
  | cons e rest ih =>
    obtain ⟨k, v⟩ := e
    by_cases hk : k = name
    · subst hk
      simp [buffersGet, List.lookup] at h
      simp [buffersStore, h]
    · have hk2 : (name == k) = false := by simpa using fun h => hk h.symm
      simp only [buffersGet, List.lookup, hk2] at h
      simp only [buffersStore, hk, if_false]
      rw [ih h]

theorem buffersStore_keys (bs : Buffers) (name : String) (b : ServerConnectionBuffer) :
    (buffersStore bs name b).map (fun e => e.1) = bs.map (fun e => e.1) := by
  induction bs with
  | nil => rfl
  | cons e rest ih =>
    obtain ⟨k, v⟩ := e
    by_cases hk : k = name
    · simp [buffersStore, hk]
    · simp [buffersStore, hk, ih]

/-- C14: on an existing network and an existing buffer, with a decodable tag
block and a persistence that succeeds, commandChangeBuffer replies RPL_OK. When
the seen tag has a value that time.Parse accepts, the buffer's last-seen
becomes exactly the parsed instant in the UTC zone, and nothing else changes:
not another field of the buffer, not another buffer, not another field of the
network, not another network. When the seen tag is absent, empty or rejected
by time.Parse, the user is exactly as before (a rejection is only logged). -/
theorem changebuffer_sets_seen (lib : Lib) (clock : Clock) (ext : Ext) (user : User)
    (netName bufferName block : String) (rest : List String) (vars : Tags)
    (net : ServerConnection) (buffer : ServerConnectionBuffer)
    (hparse : lib.parseTags block = some vars)
    (hget : getNetworkByName lib user.Networks netName = some net)
    (hbuf : buffersGet net.Buffers bufferName = some buffer)
    (hsave : ∀ c, ext.saveFails c = false) :
    (commandChangeBuffer lib clock ext user (netName :: bufferName :: block :: rest)).panicked
      = false ∧
    Event.sendLine ("BOUNCER changebuffer " ++ net.Name ++ " " ++ buffer.Name ++ " RPL_OK") ∈
      (commandChangeBuffer lib clock ext user (netName :: bufferName :: block :: rest)).out ∧
    (∀ ev ∈ (commandChangeBuffer lib clock ext user
        (netName :: bufferName :: block :: rest)).out,
      ∀ line, ev = Event.sendLine line →
        line = "BOUNCER changebuffer " ++ net.Name ++ " " ++ buffer.Name ++ " RPL_OK") ∧
    (∀ t, tagValue vars "seen" "" ≠ "" → clock.parseTime (tagValue vars "seen" "") = some t →
      ∃ pre key post bufs,
        user.Networks = pre ++ (key, net) :: post ∧
        (commandChangeBuffer lib clock ext user
            (netName :: bufferName :: block :: rest)).user
          = { user with Networks := pre ++ (key, { net with Buffers := bufs }) :: post } ∧
        buffersGet bufs bufferName
          = some { buffer with LastSeen := { unix := t.unix, nsec := t.nsec, offset := 0 } } ∧
        (∀ other, other ≠ bufferName → buffersGet bufs other = buffersGet net.Buffers other) ∧
        bufs.map (fun e => e.1) = net.Buffers.map (fun e => e.1)) ∧
    (tagValue vars "seen" "" = "" ∨ clock.parseTime (tagValue vars "seen" "") = none →
      (commandChangeBuffer lib clock ext user
          (netName :: bufferName :: block :: rest)).user = user) := by
  obtain ⟨pre, key, post, hsplit, -, -, hstore⟩ :=
    getNetworkByName_split lib user.Networks netName net hget
  have hself : ∀ b : Buffers, b = net.Buffers →
      pre ++ (key, { net with Buffers := b }) :: post = user.Networks := by
    intro b hb
    subst hb
    rw [hsplit]
  cases hpt : clock.parseTime (tagValue vars "seen" "") with
  | none =>
    have hbs := buffersStore_self net.Buffers bufferName buffer hbuf
    refine ⟨?_, ?_, ?_, ?_, ?_⟩
    · simp [commandChangeBuffer, hparse, hget, hbuf]
    · by_cases hs : tagValue vars "seen" "" = "" <;>
        simp [commandChangeBuffer, hparse, hget, hbuf, hsave, hpt, hs]
    · intro ev hev line hline
      subst hline
      by_cases hs : tagValue vars "seen" "" = "" <;>
        simpa [commandChangeBuffer, hparse, hget, hbuf, hsave, hpt, hs] using hev
    · intro t _ ht
      cases ht
    · intro _
      by_cases hs : tagValue vars "seen" "" = "" <;>
        simp [commandChangeBuffer, hparse, hget, hbuf, hpt, hs, hstore, hbs, hself]
  | some t =>
    by_cases hs : tagValue vars "seen" "" = ""
    · have hbs := buffersStore_self net.Buffers bufferName buffer hbuf
      refine ⟨?_, ?_, ?_, ?_, ?_⟩
      · simp [commandChangeBuffer, hparse, hget, hbuf]
      · simp [commandChangeBuffer, hparse, hget, hbuf, hsave, hpt, hs]
      · intro ev hev line hline
        subst hline
        simpa [commandChangeBuffer, hparse, hget, hbuf, hsave, hpt, hs] using hev
      · intro t1 hne _
        exact absurd hs hne
      · intro _
        simp [commandChangeBuffer, hparse, hget, hbuf, hpt, hs, hstore, hbs, hself]
    · refine ⟨?_, ?_, ?_, ?_, ?_⟩
      · simp [commandChangeBuffer, hparse, hget, hbuf]
      · simp [commandChangeBuffer, hparse, hget, hbuf, hsave, hpt, hs]
      · intro ev hev line hline
        subst hline
        simpa [commandChangeBuffer, hparse, hget, hbuf, hsave, hpt, hs] using hev
      · intro t1 _ ht1
        cases ht1
        refine ⟨pre, key, post,
          buffersStore net.Buffers bufferName { buffer with LastSeen := t.UTC }, hsplit, ?_,
          buffersGet_store_same _ _ _ _ hbuf,
          fun other ho => buffersGet_store_other _ _ _ _ ho, buffersStore_keys _ _ _⟩
        simp [commandChangeBuffer, hparse, hget, hbuf, hpt, hs, hstore]
      · intro h
        rcases h with h | h
        · exact absurd h hs
        · cases h

/-- C14, at the request of the spec: `changebuffer freenode #chan
seen=2024-01-02T03:04:05Z` leaves the buffer `#chan` seen at 1704164645 s
after the Unix epoch, which is 2024-01-02T03:04:05 in UTC; and the same instant
written in the zone +01:00 leaves it at the same UTC time. -/
theorem changebuffer_sets_seen_witness :
    unixOfCivil 2024 1 2 3 4 5 = 1704164645 ∧
    (∃ pre key post bufs,
      twoNetUser.Networks = pre ++ (key, freenode) :: post ∧
      (commandChangeBuffer specLib exampleClock okExt twoNetUser
          ["freenode", "#chan", "seen=2024-01-02T03:04:05Z"]).user
        = { twoNetUser with Networks := pre ++ (key, { freenode with Buffers := bufs }) :: post } ∧
      buffersGet bufs "#chan"
        = some { Name := "#chan", Channel := true, LastSeen := ⟨1704164645, 0, 0⟩ }) ∧
    (∃ pre key post bufs,
      twoNetUser.Networks = pre ++ (key, freenode) :: post ∧
      (commandChangeBuffer specLib exampleClock okExt twoNetUser
          ["freenode", "#chan", "seen=2024-01-02T04:04:05+01:00"]).user
        = { twoNetUser with Networks := pre ++ (key, { freenode with Buffers := bufs }) :: post } ∧
      buffersGet bufs "#chan"
        = some { Name := "#chan", Channel := true, LastSeen := ⟨1704164645, 0, 0⟩ }) :=
  have ⟨pre, key, post, bufs, h1, h2, h3, _⟩ :=
    (changebuffer_sets_seen specLib exampleClock okExt twoNetUser "freenode" "#chan"
      "seen=2024-01-02T03:04:05Z" [] [("seen", ⟨true, "2024-01-02T03:04:05Z"⟩)] freenode
      { Name := "#chan", Channel := true, LastSeen := ⟨0, 0, 0⟩ }
      (by decide) (by decide) (by decide) (fun _ => rfl)).2.2.2.1
      ⟨unixOfCivil 2024 1 2 3 4 5, 0, 0⟩ (by decide) (by decide)
  have ⟨pre2, key2, post2, bufs2, k1, k2, k3, _⟩ :=
    (changebuffer_sets_seen specLib exampleClock okExt twoNetUser "freenode" "#chan"
      "seen=2024-01-02T04:04:05+01:00" [] [("seen", ⟨true, "2024-01-02T04:04:05+01:00"⟩)]
      freenode { Name := "#chan", Channel := true, LastSeen := ⟨0, 0, 0⟩ }
      (by decide) (by decide) (by decide) (fun _ => rfl)).2.2.2.1
      ⟨unixOfCivil 2024 1 2 3 4 5, 0, 3600⟩ (by decide) (by decide)
  ⟨by decide, ⟨pre, key, post, bufs, h1, h2, h3⟩, ⟨pre2, key2, post2, bufs2, k1, k2, k3⟩⟩

theorem buffersGet_eq_none (bs : Buffers) (name : String) :
    buffersGet bs name = none ↔ ∀ e ∈ bs, e.1 ≠ name := by
  induction bs with
  | nil => simp [buffersGet]
  | cons e rest ih =>
    obtain ⟨k, v⟩ := e
    by_cases hk : k = name
    · subst hk
      simp [buffersGet, List.lookup]
    · have hk2 : (name == k) = false := by simpa using fun h => hk h.symm
      simp only [buffersGet, List.lookup, hk2, List.mem_cons, forall_eq_or_imp]
      exact ⟨fun h => ⟨hk, ih.1 h⟩, fun h => ih.2 h.2⟩

theorem buffersGet_remove_same (bs : Buffers) (name : String) :
    buffersGet (buffersRemove bs name) name = none := by
  rw [buffersGet_eq_none]
  intro e he
  simpa using (List.mem_filter.1 he).2

theorem buffersGet_remove_other (bs : Buffers) (name other : String) (h : other ≠ name) :
    buffersGet (buffersRemove bs name) other = buffersGet bs other := by
  induction bs with
  | nil => rfl
  | cons e rest ih =>
    obtain ⟨k, v⟩ := e
    by_cases hk : k = name
    · subst hk
      have hk2 : (other == k) = false := by simpa using h
      have : buffersRemove ((k, v) :: rest) k = buffersRemove rest k := by
        simp [buffersRemove, List.filter_cons]
      rw [this, ih]
      simp [buffersGet, List.lookup, hk2]
    · have : buffersRemove ((k, v) :: rest) name = (k, v) :: buffersRemove rest name := by
        simp [buffersRemove, List.filter_cons, hk]
      rw [this]
      simp only [buffersGet, List.lookup]
      cases hok : other == k
      · exact ih
      · rfl

theorem buffersRemove_absent (bs : Buffers) (name : String) (h : buffersGet bs name = none) :
    buffersRemove bs name = bs := by
  unfold buffersRemove
  exact List.filter_eq_self.2 (fun e he => by simpa using (buffersGet_eq_none bs name).1 h e he)

/-- C15: on an existing network commandDelBuffer hands the network to
SaveConnection, whose result it drops, and replies exactly
`BOUNCER delbuffer <network> <buffer> RPL_OK`, with the names as the client
wrote them, whether or not the buffer existed. Afterwards the named buffer is
absent from the network, every other buffer is as it was, no other field of
the network and no other network has changed, and when the buffer was absent
already the user is exactly as before. -/
theorem delbuffer_always_ok (lib : Lib) (user : User) (netName bufferName : String)
    (rest : List String) (net : ServerConnection)
    (hget : getNetworkByName lib user.Networks netName = some net) :
    (commandDelBuffer lib user (netName :: bufferName :: rest)).panicked = false ∧
    (commandDelBuffer lib user (netName :: bufferName :: rest)).out
      = [Event.saveConnection { net with Buffers := buffersRemove net.Buffers bufferName },
          Event.send ["delbuffer", netName, bufferName, "RPL_OK"]] ∧
    (∃ pre key post,
      user.Networks = pre ++ (key, net) :: post ∧
      (commandDelBuffer lib user (netName :: bufferName :: rest)).user
        = { user with
            Networks := pre ++
              (key, { net with Buffers := buffersRemove net.Buffers bufferName }) :: post }) ∧
    buffersGet (buffersRemove net.Buffers bufferName) bufferName = none ∧
    (∀ other, other ≠ bufferName →
      buffersGet (buffersRemove net.Buffers bufferName) other = buffersGet net.Buffers other) ∧
    (∀ e, e ∈ buffersRemove net.Buffers bufferName ↔ e ∈ net.Buffers ∧ e.1 ≠ bufferName) ∧
    (buffersGet net.Buffers bufferName = none →
      buffersRemove net.Buffers bufferName = net.Buffers ∧
      (commandDelBuffer lib user (netName :: bufferName :: rest)).user = user) := by
  obtain ⟨pre, key, post, hsplit, -, -, hstore⟩ :=
    getNetworkByName_split lib user.Networks netName net hget
  have huser : (commandDelBuffer lib user (netName :: bufferName :: rest)).user
      = { user with
          Networks := pre ++
            (key, { net with Buffers := buffersRemove net.Buffers bufferName }) :: post } := by
    simp [commandDelBuffer, hget, hstore]
  refine ⟨by simp [commandDelBuffer, hget], by simp [commandDelBuffer, hget],
    ⟨pre, key, post, hsplit, huser⟩, buffersGet_remove_same _ _,
    fun other ho => buffersGet_remove_other _ _ _ ho, ?_, ?_⟩
  · intro e
    simp [buffersRemove, List.mem_filter]
  · intro habs
    have hrem := buffersRemove_absent net.Buffers bufferName habs
    refine ⟨hrem, ?_⟩
    rw [huser, hrem, ← hsplit]

/-- C15, at concrete requests: `delbuffer freenode #chan` removes the one
buffer of `freenode`, and `delbuffer snoonet #none` changes nothing; both are
answered RPL_OK. -/
theorem delbuffer_always_ok_witness :
    (commandDelBuffer specLib twoNetUser ["freenode", "#chan"]).out
      = [Event.saveConnection { freenode with Buffers := buffersRemove freenode.Buffers "#chan" },
          Event.send ["delbuffer", "freenode", "#chan", "RPL_OK"]] ∧
    buffersGet (buffersRemove freenode.Buffers "#chan") "#chan" = none ∧
    (commandDelBuffer specLib twoNetUser ["snoonet", "#none"]).out
      = [Event.saveConnection { snoonet with Buffers := buffersRemove snoonet.Buffers "#none" },
          Event.send ["delbuffer", "snoonet", "#none", "RPL_OK"]] ∧
    (commandDelBuffer specLib twoNetUser ["snoonet", "#none"]).user = twoNetUser :=
  have h := delbuffer_always_ok specLib twoNetUser "freenode" "#chan" [] freenode (by decide)
  have k := delbuffer_always_ok specLib twoNetUser "snoonet" "#none" [] snoonet (by decide)
  ⟨h.2.1, h.2.2.2.1, k.2.1, (k.2.2.2.2.2.2 (by decide)).2⟩

/-- C16: on an existing network commandConnectNetwork does three things in
this order and nothing else: it sends `BOUNCER state N connecting`, it calls
Connect, and it sends `BOUNCER state N connected` when the network's connected
flag is set once Connect has returned and `BOUNCER state N disconnected` when
it is not. commandDisconnectNetwork calls Disconnect and then sends the one
notification `state N disconnected`, whatever the connection state was. -/
theorem connect_disconnect_notifications (lib : Lib) (ext : Ext) (user : User)
    (netName : String) (rest : List String) (net : ServerConnection)
    (hget : getNetworkByName lib user.Networks netName = some net) :
    (commandConnectNetwork lib ext user (netName :: rest)).panicked = false ∧
    ((ext.connect net).Connected = true →
      (commandConnectNetwork lib ext user (netName :: rest)).out
        = [Event.sendLine ("BOUNCER state " ++ netName ++ " connecting"), Event.connect net,
            Event.sendLine ("BOUNCER state " ++ netName ++ " connected")]) ∧
    ((ext.connect net).Connected = false →
      (commandConnectNetwork lib ext user (netName :: rest)).out
        = [Event.sendLine ("BOUNCER state " ++ netName ++ " connecting"), Event.connect net,
            Event.sendLine ("BOUNCER state " ++ netName ++ " disconnected")]) ∧
    (∃ pre key post,
      user.Networks = pre ++ (key, net) :: post ∧
      (commandConnectNetwork lib ext user (netName :: rest)).user
        = { user with Networks := pre ++ (key, { net with Foo := ext.connect net }) :: post }) ∧
    (commandDisconnectNetwork lib ext user (netName :: rest)).panicked = false ∧
    (commandDisconnectNetwork lib ext user (netName :: rest)).out
      = [Event.disconnect net, Event.send ["state", netName, "disconnected"]] ∧
    (∃ pre key post,
      user.Networks = pre ++ (key, net) :: post ∧
      (commandDisconnectNetwork lib ext user (netName :: rest)).user
        = { user with
            Networks := pre ++ (key, { net with Foo := ext.disconnect net }) :: post }) := by
  obtain ⟨pre, key, post, hsplit, -, -, hstore⟩ :=
    getNetworkByName_split lib user.Networks netName net hget
  refine ⟨by simp [commandConnectNetwork, hget], ?_, ?_, ⟨pre, key, post, hsplit, ?_⟩,
    by simp [commandDisconnectNetwork, hget], by simp [commandDisconnectNetwork, hget],
    ⟨pre, key, post, hsplit, ?_⟩⟩
  · intro hc
    simp [commandConnectNetwork, hget, hc]
  · intro hc
    simp [commandConnectNetwork, hget, hc]
  · simp [commandConnectNetwork, hget, hstore]
  · simp [commandDisconnectNetwork, hget, hstore]

/-- C16, at concrete requests: `connect freenode` with a server that answers,
and with one that cannot be reached, and `disconnect freenode`. -/
theorem connect_disconnect_notifications_witness :
    (commandConnectNetwork specLib okExt twoNetUser ["freenode"]).out
      = [Event.sendLine ("BOUNCER state " ++ "freenode" ++ " connecting"),
          Event.connect freenode,
          Event.sendLine ("BOUNCER state " ++ "freenode" ++ " connected")] ∧
    (commandConnectNetwork specLib downExt twoNetUser ["freenode"]).out
      = [Event.sendLine ("BOUNCER state " ++ "freenode" ++ " connecting"),
          Event.connect freenode,
          Event.sendLine ("BOUNCER state " ++ "freenode" ++ " disconnected")] ∧
    (commandDisconnectNetwork specLib okExt twoNetUser ["freenode"]).out
      = [Event.disconnect freenode, Event.send ["state", "freenode", "disconnected"]] :=
  ⟨(connect_disconnect_notifications specLib okExt twoNetUser "freenode" [] freenode
      (by decide)).2.1 (by decide),
    (connect_disconnect_notifications specLib downExt twoNetUser "freenode" [] freenode
      (by decide)).2.2.1 (by decide),
    (connect_disconnect_notifications specLib okExt twoNetUser "freenode" [] freenode
      (by decide)).2.2.2.2.2.1⟩

/-! ## Preservation of the addresses -/

theorem sameAddresses_refl (nets : Networks) : SameAddresses nets nets :=
  fun e he => ⟨e, he, rfl, rfl, rfl⟩

theorem sameAddresses_hasAddresses (before after : Networks) (h : SameAddresses before after)
    (hb : HasAddresses before) : HasAddresses after := by
  intro e he
  obtain ⟨e1, he1, -, -, haddr⟩ := h e he
  rw [← haddr]
  exact hb e1 he1

theorem storeNetwork_sameAddresses (lib : Lib) (nets : Networks) (n : String)
    (net net1 : ServerConnection) (hget : getNetworkByName lib nets n = some net)
    (hname : net1.Name = net.Name) (haddr : net1.Addresses = net.Addresses) :
    SameAddresses nets (storeNetwork lib nets n net1) := by
  obtain ⟨pre, key, post, hsplit, -, -, hstore⟩ := getNetworkByName_split lib nets n net hget
  intro e he
  rw [hstore] at he
  rcases List.mem_append.1 he with he | he
  · exact ⟨e, by rw [hsplit]; exact List.mem_append_left _ he, rfl, rfl, rfl⟩
  · rcases List.mem_cons.1 he with he | he
    · subst he
      exact ⟨(key, net), by rw [hsplit]; simp, rfl, hname.symm, haddr.symm⟩
    · exact ⟨e, by rw [hsplit]; exact List.mem_append_right _ (List.mem_cons_of_mem _ he),
        rfl, rfl, rfl⟩

theorem mapDelete_sameAddresses (before nets : Networks) (key : String)
    (h : SameAddresses before nets) : SameAddresses before (mapDelete nets key) :=
  fun e he => h e (List.mem_of_mem_filter he)

theorem mapSet_mem_cases (nets : Networks) (key : String) (net : ServerConnection)
    (e : String × ServerConnection) (he : e ∈ mapSet nets key net) :
    e ∈ nets ∨ e = (key, net) := by
  induction nets with
  | nil =>
    simp only [mapSet, List.mem_singleton] at he
    exact Or.inr he
  | cons x rest ih =>
    obtain ⟨k, v⟩ := x
    by_cases hk : k = key
    · simp only [mapSet, hk, if_true, List.mem_cons] at he
      rcases he with he | he
      · exact Or.inr he
      · exact Or.inl (List.mem_cons_of_mem _ he)
    · simp only [mapSet, hk, if_false, List.mem_cons] at he
      rcases he with he | he
      · exact Or.inl (by rw [he]; exact List.mem_cons_self _ _)
      · rcases ih he with h | h
        · exact Or.inl (List.mem_cons_of_mem _ h)
        · exact Or.inr h

theorem connect_sameAddresses (lib : Lib) (ext : Ext) (user : User) (params : List String) :
    SameAddresses user.Networks (commandConnectNetwork lib ext user params).user.Networks := by
  cases params with
  | nil => exact sameAddresses_refl _
  | cons netName rest =>
    cases hg : getNetworkByName lib user.Networks netName with
    | none => simpa [commandConnectNetwork, hg] using sameAddresses_refl _
    | some net =>
      simp only [commandConnectNetwork, hg]
      exact storeNetwork_sameAddresses lib _ _ net _ hg rfl rfl

theorem disconnect_sameAddresses (lib : Lib) (ext : Ext) (user : User)
    (params : List String) :
    SameAddresses user.Networks
      (commandDisconnectNetwork lib ext user params).user.Networks := by
  cases params with
  | nil => exact sameAddresses_refl _
  | cons netName rest =>
    cases hg : getNetworkByName lib user.Networks netName with
    | none => simpa [commandDisconnectNetwork, hg] using sameAddresses_refl _
    | some net =>
      simp only [commandDisconnectNetwork, hg]
      exact storeNetwork_sameAddresses lib _ _ net _ hg rfl rfl

theorem delbuffer_sameAddresses (lib : Lib) (user : User) (params : List String) :
    SameAddresses user.Networks (commandDelBuffer lib user params).user.Networks := by
  match params with
  | [] => exact sameAddresses_refl _
  | [_] => exact sameAddresses_refl _
  | netName :: bufferName :: rest =>
    cases hg : getNetworkByName lib user.Networks netName with
    | none => simpa [commandDelBuffer, hg] using sameAddresses_refl _
    | some net =>
      simp only [commandDelBuffer, hg]
      exact storeNetwork_sameAddresses lib _ _ net _ hg rfl rfl

theorem delnetwork_sameAddresses (lib : Lib) (ext : Ext) (user : User)
    (params : List String) :
    SameAddresses user.Networks (commandDelNetwork lib ext user params).user.Networks := by
  cases params with
  | nil => exact sameAddresses_refl _
  | cons netName rest =>
    cases hg : getNetworkByName lib user.Networks netName with
    | none => simpa [commandDelNetwork, hg] using sameAddresses_refl _
    | some net =>
      simp only [commandDelNetwork, hg]
      exact mapDelete_sameAddresses _ _ _
        (storeNetwork_sameAddresses lib _ _ net _ hg rfl rfl)

theorem changebuffer_sameAddresses (lib : Lib) (clock : Clock) (ext : Ext) (user : User)
    (params : List String) :
    SameAddresses user.Networks
      (commandChangeBuffer lib clock ext user params).user.Networks := by
  match params with
  | [] => exact sameAddresses_refl _
  | [_] => exact sameAddresses_refl _
  | [_, _] => exact sameAddresses_refl _
  | netName :: bufferName :: block :: rest =>
    cases hp : lib.parseTags block with
    | none => simpa [commandChangeBuffer, hp] using sameAddresses_refl _
    | some vars =>
      cases hg : getNetworkByName lib user.Networks netName with
      | none => simpa [commandChangeBuffer, hp, hg] using sameAddresses_refl _
      | some net =>
        cases hb : buffersGet net.Buffers bufferName with
        | none => simpa [commandChangeBuffer, hp, hg, hb] using sameAddresses_refl _
        | some buffer =>
          simp only [commandChangeBuffer, hp, hg, hb]
          exact storeNetwork_sameAddresses lib _ _ net _ hg rfl rfl

theorem addnetwork_hasAddresses (lib : Lib) (ext : Ext) (user : User) (params : List String)
    (haddr : HasAddresses user.Networks) :
    HasAddresses (commandAddNetwork lib ext user params).user.Networks := by
  cases params with
  | nil => exact haddr
  | cons block rest =>
    cases hp : lib.parseTags block with
    | none => simpa [commandAddNetwork, hp] using haddr
    | some vars =>
      by_cases hbad : tagValue vars "network" "" = "" ∨ tagValue vars "host" "" = "" ∨
          atoi (tagValue vars "port" "6667") = 0
      · simpa [commandAddNetwork, hp, hbad] using haddr
      · cases hg : getNetworkByName lib user.Networks (tagValue vars "network" "") with
        | some existing => simpa [commandAddNetwork, hp, hbad, hg] using haddr
        | none =>
          simp only [commandAddNetwork, hp, hbad, hg, if_false]
          intro e he
          rcases mapSet_mem_cases _ _ _ e he with h | h
          · exact haddr e h
          · subst h
            simp [newConnection, NewServerConnection]

theorem changeFields_no_panic (vars : Tags) (net : ServerConnection)
    (h : net.Addresses ≠ []) :
    (changeFields vars net).2 = false ∧ (changeFields vars net).1.Addresses ≠ [] := by
  obtain ⟨a, rest, ha⟩ := List.exists_cons_of_ne_nil h
  rw [changeFields_cons vars net a rest ha]
  simp

theorem changenetwork_hasAddresses (lib : Lib) (ext : Ext) (user : User)
    (params : List String) (haddr : HasAddresses user.Networks) :
    HasAddresses (commandChangeNetwork lib ext user params).user.Networks ∧
      (commandChangeNetwork lib ext user params).panicked = false := by
  match params with
  | [] => exact ⟨haddr, rfl⟩
  | [_] => exact ⟨haddr, rfl⟩
  | netName :: block :: rest =>
    cases hp : lib.parseTags block with
    | none => exact ⟨by simpa [commandChangeNetwork, hp] using haddr,
        by simp [commandChangeNetwork, hp]⟩
    | some vars =>
      cases hg : getNetworkByName lib user.Networks netName with
      | none => exact ⟨by simpa [commandChangeNetwork, hp, hg] using haddr,
          by simp [commandChangeNetwork, hp, hg]⟩
      | some net =>
        obtain ⟨pre, key, post, hsplit, -, -, hstore⟩ :=
          getNetworkByName_split lib user.Networks netName net hg
        have hnet : net.Addresses ≠ [] := haddr (key, net) (by rw [hsplit]; simp)
        obtain ⟨hnp, hne⟩ := changeFields_no_panic vars net hnet
        constructor
        · simp only [commandChangeNetwork, hp, hg, hnp, hstore]
          intro e he
          simp only [Bool.false_eq_true, if_false, List.mem_append, List.mem_cons] at he
          rcases he with he | he | he
          · exact haddr e (by rw [hsplit]; exact List.mem_append_left _ he)
          · subst he
            exact hne
          · exact haddr e (by rw [hsplit]
                              exact List.mem_append_right _ (List.mem_cons_of_mem _ he))
        · simp [commandChangeNetwork, hp, hg, hnp]

theorem dispatch_hasAddresses (lib : Lib) (clock : Clock) (ext : Ext) (user : User)
    (command : String) (params : List String) (haddr : HasAddresses user.Networks) :
    HasAddresses (dispatch lib clock ext user command params).user.Networks := by
  unfold dispatch
  split_ifs
  · rw [listnetworks_user]; exact haddr
  · exact addnetwork_hasAddresses lib ext user params haddr
  · exact (changenetwork_hasAddresses lib ext user params haddr).1
  · exact sameAddresses_hasAddresses _ _ (connect_sameAddresses lib ext user params) haddr
  · exact sameAddresses_hasAddresses _ _ (disconnect_sameAddresses lib ext user params) haddr
  · rw [listbuffers_user]; exact haddr
  · exact sameAddresses_hasAddresses _ _
      (changebuffer_sameAddresses lib clock ext user params) haddr
  · exact sameAddresses_hasAddresses _ _ (delbuffer_sameAddresses lib user params) haddr
  · exact sameAddresses_hasAddresses _ _ (delnetwork_sameAddresses lib ext user params) haddr
  · exact haddr

theorem onMessage_hasAddresses (lib : Lib) (clock : Clock) (ext : Ext) (event : HookIrcRaw)
    (haddr : HasAddresses event.User.Networks) :
    HasAddresses (onMessage lib clock ext event).user.Networks := by
  unfold onMessage
  split_ifs
  · exact haddr
  · exact haddr
  · cases hparams : event.Message.Params with
    | nil => exact haddr
    | cons verb params => exact dispatch_hasAddresses lib clock ext event.User _ params haddr

theorem runFrames_hasAddresses (lib : Lib) (clock : Clock) (frames : List Frame) (user : User)
    (haddr : HasAddresses user.Networks) :
    HasAddresses (runFrames lib clock user frames).Networks := by
  induction frames generalizing user with
  | nil => exact haddr
  | cons f rest ih =>
    exact ih _ (onMessage_hasAddresses lib clock f.ext ⟨f.FromClient, false, f.Message, user⟩
      haddr)

theorem listnetworks_no_panic (ext : Ext) (user : User) (params : List String)
    (haddr : HasAddresses user.Networks) :
    (commandListNetworks ext user params).panicked = false := by
  simp [commandListNetworks, (listNetworksLoop_ok ext user.Networks haddr).1]

theorem addnetwork_addresses (lib : Lib) (ext : Ext) (user : User) (params : List String)
    (e : String × ServerConnection)
    (he : e ∈ (commandAddNetwork lib ext user params).user.Networks) :
    e ∈ user.Networks ∨
      ∃ block rest vars, params = block :: rest ∧ lib.parseTags block = some vars ∧
        e.2.Addresses =
          [{ Host := tagValue vars "host" "", Port := atoi (tagValue vars "port" "6667"),
             UseTLS := decide (tagValue vars "tls" "0" = "1"), VerifyTLS := false }] := by
  cases params with
  | nil => exact Or.inl he
  | cons block rest =>
    cases hp : lib.parseTags block with
    | none => exact Or.inl (by simpa [commandAddNetwork, hp] using he)
    | some vars =>
      by_cases hbad : tagValue vars "network" "" = "" ∨ tagValue vars "host" "" = "" ∨
          atoi (tagValue vars "port" "6667") = 0
      · exact Or.inl (by simpa [commandAddNetwork, hp, hbad] using he)
      · cases hg : getNetworkByName lib user.Networks (tagValue vars "network" "") with
        | some existing => exact Or.inl (by simpa [commandAddNetwork, hp, hbad, hg] using he)
        | none =>
          simp only [commandAddNetwork, hp, hbad, hg, if_false] at he
          rcases mapSet_mem_cases _ _ _ e he with h | h
          · exact Or.inl h
          · subst h
            exact Or.inr ⟨block, rest, vars, rfl, hp, by simp [newConnection, NewServerConnection]⟩

/-- C17: if every network of the directory has an address, then so does every
network after each of the nine handlers, hence after any sequence of frames,
and every directory reached from the empty one has the property. On such a
directory the `Addresses[0]` of commandListNetworks and of commandChangeNetwork
never panic. The first address is what addnetwork made of its host, port and
tls tags, as changenetwork rewrote it since: a network that addnetwork adds
has exactly that one address, changenetwork rewrites host, port and tls of the
first address of the network it selected and leaves the other addresses, and
connect, disconnect, delnetwork, changebuffer and delbuffer leave every
address of every network as it was. -/
theorem addresses_invariant (lib : Lib) (clock : Clock) (ext : Ext) (user : User)
    (params : List String) (haddr : HasAddresses user.Networks) :
    HasAddresses (commandAddNetwork lib ext user params).user.Networks ∧
    HasAddresses (commandChangeNetwork lib ext user params).user.Networks ∧
    HasAddresses (commandConnectNetwork lib ext user params).user.Networks ∧
    HasAddresses (commandDisconnectNetwork lib ext user params).user.Networks ∧
    HasAddresses (commandDelNetwork lib ext user params).user.Networks ∧
    HasAddresses (commandListNetworks ext user params).user.Networks ∧
    HasAddresses (commandListBuffers lib clock ext user params).user.Networks ∧
    HasAddresses (commandChangeBuffer lib clock ext user params).user.Networks ∧
    HasAddresses (commandDelBuffer lib user params).user.Networks ∧
    (commandListNetworks ext user params).panicked = false ∧
    (commandChangeNetwork lib ext user params).panicked = false ∧
    (∀ e ∈ (commandAddNetwork lib ext user params).user.Networks,
      e ∈ user.Networks ∨
        ∃ block rest vars, params = block :: rest ∧ lib.parseTags block = some vars ∧
          e.2.Addresses =
            [{ Host := tagValue vars "host" "", Port := atoi (tagValue vars "port" "6667"),
               UseTLS := decide (tagValue vars "tls" "0" = "1"), VerifyTLS := false }]) ∧
    (∀ netName block rest vars net a others,
      params = netName :: block :: rest → lib.parseTags block = some vars →
      getNetworkByName lib user.Networks netName = some net → net.Addresses = a :: others →
      ∃ pre key post net1,
        user.Networks = pre ++ (key, net) :: post ∧
        (commandChangeNetwork lib ext user params).user.Networks
          = pre ++ (key, net1) :: post ∧
        net1.Addresses =
          { Host := if tagValue vars "host" "" ≠ "" then tagValue vars "host" "" else a.Host
            Port :=
              if atoi (tagValue vars "port" "0") > 0 then atoi (tagValue vars "port" "0")
              else a.Port
            UseTLS :=
              if tagValue vars "tls" "" = "1" then true
              else if tagValue vars "tls" "" = "0" then false else a.UseTLS
            VerifyTLS := a.VerifyTLS } :: others) ∧
    SameAddresses user.Networks (commandConnectNetwork lib ext user params).user.Networks ∧
    SameAddresses user.Networks (commandDisconnectNetwork lib ext user params).user.Networks ∧
    SameAddresses user.Networks (commandDelNetwork lib ext user params).user.Networks ∧
    SameAddresses user.Networks
      (commandChangeBuffer lib clock ext user params).user.Networks ∧
    SameAddresses user.Networks (commandDelBuffer lib user params).user.Networks ∧
    (∀ frames : List Frame, HasAddresses (runFrames lib clock user frames).Networks) ∧
    (∀ (start : User) (frames : List Frame), start.Networks = [] →
      HasAddresses (runFrames lib clock start frames).Networks ∧
      (commandListNetworks ext (runFrames lib clock start frames) params).panicked = false ∧
      (commandChangeNetwork lib ext (runFrames lib clock start frames) params).panicked
        = false) := by
  have hconn := connect_sameAddresses lib ext user params
  have hdisc := disconnect_sameAddresses lib ext user params
  have hdeln := delnetwork_sameAddresses lib ext user params
  have hchb := changebuffer_sameAddresses lib clock ext user params
  have hdelb := delbuffer_sameAddresses lib user params
  refine ⟨addnetwork_hasAddresses lib ext user params haddr,
    (changenetwork_hasAddresses lib ext user params haddr).1,
    sameAddresses_hasAddresses _ _ hconn haddr, sameAddresses_hasAddresses _ _ hdisc haddr,
    sameAddresses_hasAddresses _ _ hdeln haddr, ?_, ?_,
    sameAddresses_hasAddresses _ _ hchb haddr, sameAddresses_hasAddresses _ _ hdelb haddr,
    listnetworks_no_panic ext user params haddr,
    (changenetwork_hasAddresses lib ext user params haddr).2,
    fun e he => addnetwork_addresses lib ext user params e he, ?_,
    hconn, hdisc, hdeln, hchb, hdelb,
    fun frames => runFrames_hasAddresses lib clock frames user haddr, ?_⟩
  · rw [listnetworks_user]; exact haddr
  · rw [listbuffers_user]; exact haddr
  · intro netName block rest vars net a others hparams hp hg ha
    subst hparams
    obtain ⟨pre, key, post, hsplit, -, -, hstore⟩ :=
      getNetworkByName_split lib user.Networks netName net hg
    refine ⟨pre, key, post, (changeFields vars net).1, hsplit, ?_, ?_⟩
    · simp only [commandChangeNetwork, hp, hg]
      split_ifs <;> simp only [hstore]
    · rw [changeFields_cons vars net a others ha]
  · intro start frames hstart
    have h0 : HasAddresses start.Networks := by
      rw [hstart]
      exact fun e he => by simp at he
    have hrun := runFrames_hasAddresses lib clock frames start h0
    exact ⟨hrun, listnetworks_no_panic ext _ params hrun,
      (changenetwork_hasAddresses lib ext _ params hrun).2⟩

/-- C17, at a concrete state: the directory that holds `freenode` and `snoonet`
has the property, keeps it through `changenetwork freenode host=h;tls=1`, and
that command does not panic. -/
theorem addresses_invariant_witness :
    HasAddresses twoNetUser.Networks ∧
    HasAddresses
      (commandChangeNetwork specLib okExt twoNetUser ["freenode", "host=h;tls=1"]).user.Networks ∧
    (commandChangeNetwork specLib okExt twoNetUser ["freenode", "host=h;tls=1"]).panicked
      = false :=
  have h := addresses_invariant specLib rejectingClock okExt twoNetUser
    ["freenode", "host=h;tls=1"] (by decide)
  ⟨by decide, h.2.1, h.2.2.2.2.2.2.2.2.2.2.1⟩

/-- C18, the code at the frame `BOUNCER` with no parameter: onMessage sets the
halt flag and then stops in the index out of range panic of `msg.Params[0]`
(line 50), which no length test guards; it sends nothing and changes
nothing. -/
theorem onMessage_no_params_panics (lib : Lib) (clock : Clock) (ext : Ext) (user : User)
    (halt : Bool) :
    onMessage lib clock ext ⟨true, halt, ⟨"BOUNCER", []⟩, user⟩ = ⟨true, user, [], true⟩ ∧
    (onMessage lib clock ext ⟨true, halt, ⟨"BOUNCER", []⟩, user⟩).Halt = true ∧
    (onMessage lib clock ext ⟨true, halt, ⟨"BOUNCER", []⟩, user⟩).panicked = true :=
  ⟨rfl, rfl, rfl⟩

/-- C19, the code at `addnetwork network=x;host=h;port=-5`: line 267 rejects
the port 0 only, so the request is accepted, answered RPL_OK, and the network
is stored with the primary port -5. The other half of the claim holds:
whatever the request, every port commandChangeNetwork leaves in a network is a
port the network had or is at least 1 (line 343 tests `netPort > 0`). -/
theorem addnetwork_accepts_negative_port (vars : Tags) (net : ServerConnection) :
    atoi "-5" = -5 ∧
    commandAddNetwork specLib okExt emptyUser ["network=x;host=h;port=-5"]
      = ⟨{ emptyUser with
            Networks := [("x",
              { Name := "x", Password := "", Nickname := "nick0", Username := "user0",
                Realname := "real0",
                Addresses := [{ Host := "h", Port := -5, UseTLS := false, VerifyTLS := false }],
                Buffers := [], Foo := { Connected := false, Nick := "" } })] },
          [Event.saveConnection
              { Name := "x", Password := "", Nickname := "nick0", Username := "user0",
                Realname := "real0",
                Addresses := [{ Host := "h", Port := -5, UseTLS := false, VerifyTLS := false }],
                Buffers := [], Foo := { Connected := false, Nick := "" } },
            Event.sendLine "BOUNCER addnetwork x RPL_OK"], false⟩ ∧
    (∀ p ∈ (changeFields vars net).1.Addresses.map (fun a => a.Port),
      p ∈ net.Addresses.map (fun a => a.Port) ∨ 1 ≤ p) := by
  refine ⟨by decide, by decide, ?_⟩
  intro p hp
  rcases hA : net.Addresses with _ | ⟨a, rest⟩
  · have hlen := (changeFields_frame vars net).2.2.2.2.1
    rw [hA] at hlen
    have hnil : (changeFields vars net).1.Addresses = [] := List.length_eq_zero.1 hlen
    rw [hnil] at hp
    simp at hp
  · rw [changeFields_cons vars net a rest hA] at hp
    simp only [List.map_cons, List.mem_cons] at hp
    rcases hp with hp | hp
    · by_cases hpos : atoi (tagValue vars "port" "0") > 0
      · right
        rw [hp, if_pos hpos]
        omega
      · left
        rw [hp, if_neg hpos]
        simp
    · left
      simp only [List.map_cons, List.mem_cons]
      exact Or.inr hp

theorem getNetworkByName_mapSet (lib : Lib) (nets : Networks) (net : ServerConnection)
    (hfresh : ∀ e ∈ nets, lib.toLower e.2.Name ≠ lib.toLower net.Name) :
    getNetworkByName lib (mapSet nets net.Name net) net.Name = some net := by
  induction nets with
  | nil => simp [mapSet, getNetworkByName]
  | cons e rest ih =>
    obtain ⟨k, v⟩ := e
    have hv : lib.toLower v.Name ≠ lib.toLower net.Name := hfresh (k, v) (by simp)
    by_cases hk : k = net.Name
    · simp [mapSet, hk, getNetworkByName]
    · simp only [mapSet, hk, if_false, getNetworkByName, hv]
      exact ih (fun e he => hfresh e (List.mem_cons_of_mem _ he))

/-- C20: when an addnetwork request passes every check and SaveConnection
returns an error, the reply is
`BOUNCER addnetwork <name> ERR_UNKNOWN :Error saving the network` and the new
network stays in the directory: the same request again, whatever the data
store then does, is answered ERR_NAMEINUSE and changes nothing, and
listnetworks (on a directory whose networks all have an address) sends an item
line for the network, whose fields are, in some order, network, nick, user,
host, port, password, tls and state=disconnected. -/
theorem addnetwork_not_rolled_back (lib : Lib) (ext ext2 : Ext) (user : User) (block : String)
    (rest : List String) (vars : Tags)
    (hparse : lib.parseTags block = some vars)
    (hname : tagValue vars "network" "" ≠ "")
    (hhost : tagValue vars "host" "" ≠ "")
    (hport : atoi (tagValue vars "port" "6667") ≠ 0)
    (hfresh : ∀ e ∈ user.Networks,
      lib.toLower e.2.Name ≠ lib.toLower (tagValue vars "network" ""))
    (hfail : ext.saveFails (newConnection user vars) = true)
    (haddr : HasAddresses user.Networks) :
    (commandAddNetwork lib ext user (block :: rest)).out
      = [Event.saveConnection (newConnection user vars),
          Event.sendLine ("BOUNCER addnetwork " ++ tagValue vars "network" "" ++
            " ERR_UNKNOWN :Error saving the network")] ∧
    (tagValue vars "network" "", newConnection user vars) ∈
      (commandAddNetwork lib ext user (block :: rest)).user.Networks ∧
    commandAddNetwork lib ext2 (commandAddNetwork lib ext user (block :: rest)).user
        (block :: rest)
      = ⟨(commandAddNetwork lib ext user (block :: rest)).user,
          [Event.sendLine
            ("BOUNCER addnetwork " ++ tagValue vars "network" "" ++ " ERR_NAMEINUSE")],
          false⟩ ∧
    (commandListNetworks ext (commandAddNetwork lib ext user (block :: rest)).user []).panicked
      = false ∧
    ∃ vals,
      Event.sendLineVals "BOUNCER listnetworks " vals ∈
        (commandListNetworks ext (commandAddNetwork lib ext user (block :: rest)).user []).out ∧
      ("network", tagValue vars "network" "") ∈ vals ∧
      vals.Perm
        [("network", tagValue vars "network" ""),
          ("nick", (newConnection user vars).Nickname),
          ("user", (newConnection user vars).Username),
          ("host", tagValue vars "host" ""),
          ("port", itoa (atoi (tagValue vars "port" "6667"))),
          ("password", tagValue vars "password" ""),
          ("tls", if tagValue vars "tls" "0" = "1" then "1" else "0"),
          ("state", "disconnected")] := by
  have hnone : getNetworkByName lib user.Networks (tagValue vars "network" "") = none :=
    (getNetworkByName_eq_none lib user.Networks _).2 hfresh
  have hcname : (newConnection user vars).Name = tagValue vars "network" "" := rfl
  have hbad : ¬ (tagValue vars "network" "" = "" ∨ tagValue vars "host" "" = "" ∨
      atoi (tagValue vars "port" "6667") = 0) := by
    simp [hname, hhost, hport]
  have hrun : (commandAddNetwork lib ext user (block :: rest)).user
      = { user with
          Networks := mapSet user.Networks (newConnection user vars).Name
            (newConnection user vars) } := by
    simp only [commandAddNetwork, hparse, hbad, hnone, if_false]
  have hfound : getNetworkByName lib
      (mapSet user.Networks (newConnection user vars).Name (newConnection user vars))
      (tagValue vars "network" "") = some (newConnection user vars) :=
    getNetworkByName_mapSet lib user.Networks (newConnection user vars) hfresh
  have haddr2 : HasAddresses (commandAddNetwork lib ext user (block :: rest)).user.Networks :=
    addnetwork_hasAddresses lib ext user (block :: rest) haddr
  have hmem : (tagValue vars "network" "", newConnection user vars) ∈
      (commandAddNetwork lib ext user (block :: rest)).user.Networks := by
    rw [hrun]
    exact mapSet_mem _ _ _
  obtain ⟨hloop, hlines⟩ := listNetworksLoop_ok ext _ haddr2
  obtain ⟨vals, hvals, hline⟩ := hlines _ hmem
  have hperm := rangeVals_perm (ext.rangeOrder vals) vals
  refine ⟨?_, hmem, ?_, listnetworks_no_panic ext _ [] haddr2,
    rangeVals (ext.rangeOrder vals) vals, ?_, ?_⟩
  · simp [commandAddNetwork, hparse, hbad, hnone, hfail]
  · rw [hrun]
    rw [hcname] at hfound
    simp only [commandAddNetwork, hparse, hbad, if_false, hcname, hfound]
  · simp only [commandListNetworks, hloop]
    simp [hline]
  · simp only [networkVals, newConnection, NewServerConnection, List.nil_append,
      Option.some.injEq] at hvals
    subst hvals
    exact ⟨hperm.mem_iff.2 (by simp), by simpa [newConnection, NewServerConnection] using hperm⟩

/-- C20, at a concrete request: `network=freenode;host=irc.freenode.net` for a
user whose directory holds `snoonet`, with a data store that is down. -/
theorem addnetwork_not_rolled_back_witness :
    (commandAddNetwork specLib failingExt snoonetUser
        ["network=freenode;host=irc.freenode.net"]).out
      = [Event.saveConnection (newConnection snoonetUser
            [("host", ⟨true, "irc.freenode.net"⟩), ("network", ⟨true, "freenode"⟩)]),
          Event.sendLine ("BOUNCER addnetwork " ++ "freenode" ++
            " ERR_UNKNOWN :Error saving the network")] ∧
    commandAddNetwork specLib okExt
        (commandAddNetwork specLib failingExt snoonetUser
          ["network=freenode;host=irc.freenode.net"]).user
        ["network=freenode;host=irc.freenode.net"]
      = ⟨(commandAddNetwork specLib failingExt snoonetUser
            ["network=freenode;host=irc.freenode.net"]).user,
          [Event.sendLine ("BOUNCER addnetwork " ++ "freenode" ++ " ERR_NAMEINUSE")], false⟩ :=
  have h := addnetwork_not_rolled_back specLib failingExt okExt snoonetUser
    "network=freenode;host=irc.freenode.net" []
    [("host", ⟨true, "irc.freenode.net"⟩), ("network", ⟨true, "freenode"⟩)]
    (by decide) (by decide) (by decide) (by decide) (by decide) (by decide) (by decide)
  ⟨h.1, h.2.2.1⟩

end Gircbnc
